import Mathlib

/-!
# Smart door lock: a shallow embedding of the firmware

The firmware (`Smart DoorLock/main.cpp`, `pw_mode.cpp`, `button_input.h`,
`Smart DoorLock/motordriver.cpp`) is a single cooperative loop over a handful of
global variables.  The globals are collected in the record `World`; every C++
function becomes a function on `World`.

Modelling conventions

* Every call of `Kernel::Clock::now()` is an input.  Functions take the reading
  as a parameter (`current_time`); a function-local `static auto x = now()` is an
  `Option Int` that is `none` until the first call, and the function gets a
  second parameter `t0` for the reading taken by that initialiser.  The loop
  body receives a whole stream of readings `clk : Nat → Int` and hands a fresh
  index to every call site, so no two clock reads are tied together.
* Times are milliseconds, as counted by `duration_cast<milliseconds>(..).count()`.
* `delay(..)` only lets time pass; it has no effect on the globals.
* The two `Ticker` callbacks and the arrival of a serial byte are events of
  their own (`Event`), interleaved with loop iterations.  A timer interrupt that
  fires in the middle of an iteration commutes with the part of the iteration
  on its far side, because an iteration reads `wait_time` at one point only and
  every write to it is the constant reset of a transition.  A byte that arrives
  in the middle of an iteration before its drain loop has ended is drained like
  one that arrived before the iteration; the bytes that arrive later in the
  iteration are the field `late` of its input and are in the queue when the
  iteration ends.
* The receive queue of `BufferedSerial bt` is the list `bt`, oldest byte first:
  an arriving byte is appended, `bt.readable()` holds while the list is not
  empty, and `bt.read(&c, 1)` takes the head and returns 1.  The queue of the
  library is bounded; the list is not, which only adds inputs.
* `int` variables are `Int`.  `wait_time` is decremented once a second for as
  long as the door stays closed, so its decrement is taken modulo 2^32 (`int32`),
  as the compiled code does.  The other `++`/`--` act on values that the program
  keeps small (`melody_cnt`, digits, cursor).
* `double` duty cycles (`0`, `0.3`, `0.5`) are only stored and compared for
  equality; they are represented in percent (`0`, `30`, `50`).
* `printf` to the console and the floating point sensor values are not
  represented.  Calls on the display object are recorded in order in `myOled`.
-/

namespace DoorLock

/-! ## Data model -/

/-- Door state: `enum { CLOSED, OPENED, CLOSING, OPENING } state;`. -/
inductive DoorState
  | CLOSED
  | OPENED
  | CLOSING
  | OPENING
  deriving DecidableEq, Repr

def RUN_WAIT_TIME : Int := 5
def FORCE_WAIT_TIME : Int := 30
def DEBOUNCE_TIME_MS : Int := 300

/-- Values of `btn_input_t`: `NONE = 0, BTN1 = 1, BTN2 = 2`. -/
def NONE : Int := 0
def BTN1 : Int := 1
def BTN2 : Int := 2

/-- Values of `js_value_t`: `NEUTRAL=0, LEFT=1, RIGHT=-1, UP=1, DOWN=-1`. -/
def NEUTRAL : Int := 0
def LEFT : Int := 1
def RIGHT : Int := -1
def UP : Int := 1
def DOWN : Int := -1

def FORWARD_DIR : Int := 0
def BACKWARD_DIR : Int := 1

/-- An `int[4]` array.  Indexing outside `0..3` is undefined behaviour in the
source; here a read outside the range gives `0` and a write outside is dropped. -/
structure Arr4 where
  a0 : Int
  a1 : Int
  a2 : Int
  a3 : Int
  deriving DecidableEq, Repr

def Arr4.get (a : Arr4) (i : Int) : Int :=
  if i = 0 then a.a0 else if i = 1 then a.a1 else if i = 2 then a.a2
  else if i = 3 then a.a3 else 0

def Arr4.set (a : Arr4) (i : Int) (v : Int) : Arr4 :=
  if i = 0 then { a with a0 := v } else if i = 1 then { a with a1 := v }
  else if i = 2 then { a with a2 := v } else if i = 3 then { a with a3 := v } else a

/-- Reference code: `int rpw[4] = {1,2,3,4};` (never assigned). -/
def rpw : Arr4 := ⟨1, 2, 3, 4⟩

/-- Slot coordinates: `static int xp[4] = {1, 32, 64, 96}; static int yp = 25;`. -/
def xp : Arr4 := ⟨1, 32, 64, 96⟩
def yp : Int := 25
def CURSOR_Y_POS : Int := yp + 29
def CURSOR_WIDTH : Int := 26
def CURSOR_HEIGHT : Int := 2

def opening_melody : Arr4 := ⟨3830, 3038, 2550, 3830⟩
def closing_melody : Arr4 := ⟨3830, 2550, 3038, 3830⟩

/-- Texts printed on the display. -/
inductive Label
  | Close
  | Open
  | Opening
  | Closing
  | TempHumi
  deriving DecidableEq, Repr

/-- Calls on `myOled`. -/
inductive OledOp
  | clearDisplay
  | setTextSize (n : Int)
  | setTextCursor (x y : Int)
  | writeChar (c : Int)
  | printf (l : Label)
  | fillRect (x y w h color : Int)
  | display
  deriving DecidableEq, Repr

/-- Private members of `class Motor`. -/
structure Motor where
  _pwmObj : Int
  _dirObj : Int
  _speed : Int
  _sign : Int
  deriving DecidableEq, Repr

/-- The global and function-static variables of the firmware. -/
structure World where
  state : DoorState
  ledBus : Int
  motorA : Motor
  wait_time : Int
  melody_cnt : Int
  buzzer_period_us : Int
  buzzer : Int
  dht_read_flag : Bool
  myOled : List OledOp
  bt : List Char
  last_btn1_time : Int
  last_btn2_time : Int
  btn1_processed : Bool
  btn2_processed : Bool
  prevState : Int
  showDHT_last_update : Option Int
  showNow_last_update : Option Int
  pw : Arr4
  ppw : Arr4
  currCursorPos : Int
  prevCursorPos : Int
  xv : Int
  yv : Int
  last_read : Option Int
  last_change : Option Int
  isPWRight : Bool
  deriving DecidableEq, Repr

/-- What one pass through the body of `while(1)` reads from outside: the clock
readings, the raw value of `btnBus`, and the two joystick channels after
`int(raw * 100)`.  The field `late` holds the serial bytes that arrive during the
pass too late to be drained by it: after its drain loop has ended, or at any moment
of a pass that has no drain loop.  No statement of the pass reads them. -/
structure LoopInput where
  clk : Nat → Int
  btnBus : Int
  xAxis : Int
  yAxis : Int
  late : List Char := []

/-! ## motordriver.cpp -/

def Motor.init : Motor :=
  { _pwmObj := 0, _dirObj := FORWARD_DIR, _speed := 0, _sign := FORWARD_DIR }

def Motor.forward (m : Motor) (speed : Int) : Motor :=
  if m._sign = FORWARD_DIR ∧ m._speed = speed then m
  else { _sign := FORWARD_DIR, _dirObj := FORWARD_DIR, _speed := speed, _pwmObj := speed }

def Motor.backward (m : Motor) (speed : Int) : Motor :=
  if m._sign = BACKWARD_DIR ∧ m._speed = speed then m
  else { _sign := BACKWARD_DIR, _dirObj := BACKWARD_DIR, _speed := speed, _pwmObj := speed }

def Motor.stop (m : Motor) : Motor :=
  { m with _speed := 0, _pwmObj := 0 }

/-! ## button_input.h and the debouncer of main.cpp -/

/-- The function `btnPressed`: reports `~currState & 0x03` when the bus value
differs from the previous sample, `NONE` otherwise.  In two's complement
`~c = -c-1`, and `& 0x03` is the residue modulo 4. -/
def btnPressed (currState : Int) (w : World) : Int × World :=
  if currState ≠ w.prevState then
    ((-currState - 1) % 4, { w with prevState := currState })
  else
    (NONE, w)

def getDebounceButton (current_time : Int) (btnBus : Int) (w : World) : Int × World :=
  let r := btnPressed btnBus w
  let btn := r.1
  let w1 := r.2
  if btn = BTN1 then
    let time_diff := current_time - w1.last_btn1_time
    if time_diff > DEBOUNCE_TIME_MS ∧ w1.btn1_processed = false then
      (BTN1, { w1 with last_btn1_time := current_time, btn1_processed := true })
    else (0, w1)
  else if btn = BTN2 then
    let time_diff := current_time - w1.last_btn2_time
    if time_diff > DEBOUNCE_TIME_MS ∧ w1.btn2_processed = false then
      (BTN2, { w1 with last_btn2_time := current_time, btn2_processed := true })
    else (0, w1)
  else
    (0, { w1 with btn1_processed := false, btn2_processed := false })

/-! ## Timer callbacks, sensor flag, status presenter -/

/-- Value stored in a 32-bit `int` when the exact result is `x`: two's complement
wrap-around. -/
def int32 (x : Int) : Int := (x + 2147483648) % 4294967296 - 2147483648

/-- The callback of `waitTimer`: `wait_time --` on a 32-bit `int`. -/
def waitTimerHandler (w : World) : World :=
  { w with wait_time := int32 (w.wait_time - 1) }

def setDHTReadFlag (w : World) : World :=
  { w with dht_read_flag := true }

def readTempHumi (w : World) : World :=
  if w.dht_read_flag then { w with dht_read_flag := false } else w

def showDHT (t0 current_time : Int) (w : World) : World :=
  let last_update := w.showDHT_last_update.getD t0
  if current_time - last_update > 1000 then
    { w with
      myOled := w.myOled ++
        [OledOp.setTextSize 1, OledOp.setTextCursor 1 1, OledOp.printf Label.TempHumi,
         OledOp.display],
      showDHT_last_update := some current_time }
  else
    { w with showDHT_last_update := some last_update }

def showNowText (w : World) : List OledOp :=
  if w.state = DoorState.CLOSED ∨ w.state = DoorState.OPENED then
    [OledOp.setTextSize 2, OledOp.setTextCursor 65 1,
     OledOp.printf (if w.state = DoorState.CLOSED then Label.Close else Label.Open)]
  else if w.state = DoorState.OPENING ∨ w.state = DoorState.CLOSING then
    [OledOp.setTextSize 3, OledOp.setTextCursor 1 29,
     OledOp.printf (if w.state = DoorState.OPENING then Label.Opening else Label.Closing)]
  else []

def showNow (t0 current_time : Int) (w : World) : World :=
  let last_update := w.showNow_last_update.getD t0
  if current_time - last_update > 500 then
    { w with
      myOled := w.myOled ++ showNowText w ++ [OledOp.display],
      showNow_last_update := some current_time }
  else
    { w with showNow_last_update := some last_update }

/-! ## pw_mode.cpp -/

def displayPasswordStep (s : Bool × World) (i : Int) : Bool × World :=
  let w := s.2
  if w.pw.get i ≠ w.ppw.get i then
    (true,
     { w with
       myOled := w.myOled ++
         [OledOp.setTextCursor (xp.get i) yp, OledOp.writeChar (0x30 + w.pw.get i)],
       ppw := w.ppw.set i (w.pw.get i) })
  else s

def displayPassword (w : World) : World :=
  let w0 := { w with myOled := w.myOled ++ [OledOp.setTextSize 4] }
  let r := [0, 1, 2, 3].foldl displayPasswordStep (false, w0)
  if r.1 then { r.2 with myOled := r.2.myOled ++ [OledOp.display] } else r.2

def displayCursor (w : World) : World :=
  if w.currCursorPos ≠ w.prevCursorPos then
    let erase :=
      if w.prevCursorPos ≥ 0 then
        [OledOp.fillRect (xp.get w.prevCursorPos) CURSOR_Y_POS CURSOR_WIDTH CURSOR_HEIGHT 0]
      else []
    { w with
      myOled := w.myOled ++ erase ++
        [OledOp.fillRect (xp.get w.currCursorPos) CURSOR_Y_POS CURSOR_WIDTH CURSOR_HEIGHT 1,
         OledOp.display],
      prevCursorPos := w.currCursorPos }
  else w

def center : Int := 50
def threshold : Int := 25

/-- The function `getJoysticValue`; `x` and `y` are `int(x_raw * 100)` and
`int(y_raw * 100)`. -/
def getJoysticValue (t0 current_time : Int) (x y : Int) (w : World) : World :=
  let last_read := w.last_read.getD t0
  if current_time - last_read < 150 then
    { w with last_read := some last_read }
  else
    { w with
      last_read := some current_time,
      xv := if x > center + threshold then RIGHT
            else if x < center - threshold then LEFT else NEUTRAL,
      yv := if y > center + threshold then DOWN
            else if y < center - threshold then UP else NEUTRAL }

def changePWandCursor (t0 current_time : Int) (w : World) : World :=
  let last_change := w.last_change.getD t0
  let w0 := { w with last_change := some last_change }
  if current_time - last_change < 500 then w0
  else if w0.yv ≠ NEUTRAL then
    let num := w0.pw.get w0.currCursorPos
    let num1 :=
      if w0.yv = UP then (if num + 1 > 9 then 0 else num + 1)
      else if w0.yv = DOWN then (if num - 1 < 0 then 9 else num - 1)
      else num
    { w0 with pw := w0.pw.set w0.currCursorPos num1, last_change := some current_time }
  else if w0.xv ≠ NEUTRAL then
    let c1 :=
      if w0.xv = LEFT then (if w0.currCursorPos - 1 < 0 then 3 else w0.currCursorPos - 1)
      else if w0.xv = RIGHT then (if w0.currCursorPos + 1 > 3 then 0 else w0.currCursorPos + 1)
      else w0.currCursorPos
    { w0 with prevCursorPos := w0.currCursorPos, currCursorPos := c1,
              last_change := some current_time }
  else w0

/-- The loop of `isRight`, over the indices still to be compared: the first
mismatch returns `false`, running off the end returns `true`. -/
def isRightLoop (pw : Arr4) : List Int → Bool
  | [] => true
  | i :: rest => if pw.get i ≠ rpw.get i then false else isRightLoop pw rest

def isRight (w : World) : World :=
  { w with isPWRight := isRightLoop w.pw [0, 1, 2, 3] }

def changePW (w : World) : Bool × World :=
  let w1 := isRight w
  (w1.isPWRight, w1)

def initPwModeStep (w : World) (i : Int) : World :=
  { w with pw := w.pw.set i 0, ppw := w.ppw.set i (-1) }

def initPwMode (w : World) : World :=
  let w0 := { w with myOled := w.myOled ++ [OledOp.setTextSize 4] }
  let w1 := [0, 1, 2, 3].foldl initPwModeStep w0
  { w1 with currCursorPos := 0, prevCursorPos := -1, isPWRight := false }

def cleanupPwMode (w : World) : World := w

def doPwModeOperation (tJ0 tJ tC0 tC : Int) (x y : Int) (w : World) : World :=
  displayCursor (displayPassword (changePWandCursor tC0 tC (getJoysticValue tJ0 tJ x y w)))

/-! ## main.cpp: the loop body -/

/-- The block that the `CLOSED` case runs at each of its three triggers. -/
def enterOPENING (t0 t : Int) (w : World) : World :=
  showNow t0 t (cleanupPwMode
    { w with state := DoorState.OPENING, myOled := w.myOled ++ [OledOp.clearDisplay],
             ledBus := 0, wait_time := RUN_WAIT_TIME })

/-- The block that the `OPENED` case runs at each of its two triggers. -/
def enterCLOSING (t0 t : Int) (w : World) : World :=
  showNow t0 t
    { w with state := DoorState.CLOSING, myOled := w.myOled ++ [OledOp.clearDisplay],
             ledBus := 0, wait_time := RUN_WAIT_TIME }

/-- The loop `while(bt.readable())` of the `CLOSED` case, over the buffered bytes;
`i` is the position of the next byte, used only to pick fresh clock readings. -/
def drainCLOSED (clk : Nat → Int) : List Char → Nat → World → World
  | [], _, w => w
  | c :: cs, i, w =>
    let w1 := { w with bt := cs }
    drainCLOSED clk cs (i + 1)
      (if c = 'o' then enterOPENING (clk (11 + 2 * i)) (clk (12 + 2 * i)) w1 else w1)

/-- The loop `while(bt.readable())` of the `OPENED` case. -/
def drainOPENED (clk : Nat → Int) : List Char → Nat → World → World
  | [], _, w => w
  | c :: cs, i, w =>
    let w1 := { w with bt := cs }
    drainOPENED clk cs (i + 1)
      (if c = 'c' then enterCLOSING (clk (11 + 2 * i)) (clk (12 + 2 * i)) w1 else w1)

def playMelody (tone : Int) (w : World) : World :=
  { w with buzzer_period_us := tone, buzzer := 50 }

/-- The loop `while(melody_cnt < 4)`; it is entered with `4 - melody_cnt` rounds
to go. -/
def melodyLoop (melody : Arr4) : Nat → World → World
  | 0, w => w
  | n + 1, w =>
    let w1 := playMelody (melody.get w.melody_cnt) w
    melodyLoop melody n { w1 with melody_cnt := w1.melody_cnt + 1 }

/-- World in which the `CLOSED` case tests the buttons: the serial buffer has been
drained and `doPwModeOperation` has run. -/
def closedBeforeButtons (inp : LoopInput) (w : World) : World :=
  doPwModeOperation (inp.clk 3) (inp.clk 4) (inp.clk 5) (inp.clk 6) inp.xAxis inp.yAxis
    (drainCLOSED inp.clk w.bt 0 w)

def caseCLOSED (inp : LoopInput) (button_state : Int) (w : World) : World :=
  let w2 := closedBeforeButtons inp w
  let w3 :=
    if button_state = BTN1 then
      let r := changePW w2
      if r.1 then enterOPENING (inp.clk 7) (inp.clk 8) r.2 else r.2
    else w2
  if button_state = BTN2 then enterOPENING (inp.clk 9) (inp.clk 10) w3 else w3

def caseOPENING (inp : LoopInput) (w : World) : World :=
  let w1 := { w with motorA := w.motorA.forward 30 }
  let w2 := melodyLoop opening_melody (4 - w1.melody_cnt).toNat w1
  let w3 := { w2 with buzzer := 0 }
  if w3.wait_time ≤ 0 then
    showNow (inp.clk 7) (inp.clk 8)
      { w3 with state := DoorState.OPENED, myOled := w3.myOled ++ [OledOp.clearDisplay],
                ledBus := 4, melody_cnt := 0, wait_time := FORCE_WAIT_TIME,
                motorA := w3.motorA.stop }
  else w3

def caseOPENED (inp : LoopInput) (button_state : Int) (w : World) : World :=
  let w1 := drainOPENED inp.clk w.bt 0 w
  if w1.wait_time ≤ 0 ∨ button_state = BTN2 then
    enterCLOSING (inp.clk 7) (inp.clk 8) w1
  else w1

def caseCLOSING (inp : LoopInput) (w : World) : World :=
  let w1 := { w with motorA := w.motorA.backward 30 }
  let w2 := melodyLoop closing_melody (4 - w1.melody_cnt).toNat w1
  let w3 := { w2 with buzzer := 0 }
  if w3.wait_time ≤ 0 then
    initPwMode (showNow (inp.clk 7) (inp.clk 8)
      { w3 with state := DoorState.CLOSED, myOled := w3.myOled ++ [OledOp.clearDisplay],
                ledBus := 1, melody_cnt := 0, motorA := w3.motorA.stop })
  else w3

/-- The head of the loop body up to `int button_state = getDebounceButton();`. -/
def loopHead (inp : LoopInput) (w : World) : Int × World :=
  getDebounceButton (inp.clk 2) inp.btnBus
    (showDHT (inp.clk 0) (inp.clk 1) (readTempHumi w))

/-- The debounced button event of an iteration. -/
def buttonEvent (inp : LoopInput) (w : World) : Int := (loopHead inp w).1

/-- One pass through the body of `while(1)` in `main`.  The bytes `inp.late`, which no
statement of the pass reads, are put in the queue by `step`. -/
def loopBody (inp : LoopInput) (w : World) : World :=
  let r := loopHead inp w
  match r.2.state with
  | DoorState.CLOSED => caseCLOSED inp r.1 r.2
  | DoorState.OPENING => caseOPENING inp r.2
  | DoorState.OPENED => caseOPENED inp r.1 r.2
  | DoorState.CLOSING => caseCLOSING inp r.2

/-- World when the dynamic initialisers have run, before `main`: `t1` and `t2`
are the clock readings stored in `last_btn1_time` and `last_btn2_time`. -/
def boot (t1 t2 : Int) : World :=
  { state := DoorState.CLOSED, ledBus := 0, motorA := Motor.init, wait_time := 0,
    melody_cnt := 0, buzzer_period_us := 0, buzzer := 0, dht_read_flag := false,
    myOled := [], bt := [], last_btn1_time := t1, last_btn2_time := t2,
    btn1_processed := false, btn2_processed := false, prevState := 0xffff,
    showDHT_last_update := none, showNow_last_update := none,
    pw := ⟨0, 0, 0, 0⟩, ppw := ⟨-1, -1, -1, -1⟩, currCursorPos := 0, prevCursorPos := -1,
    xv := NEUTRAL, yv := NEUTRAL, last_read := none, last_change := none,
    isPWRight := false }

def setup (clk : Nat → Int) (w : World) : World :=
  let w1 := { w with state := DoorState.CLOSED, ledBus := 1 }
  let w2 := { w1 with myOled := w1.myOled ++ [OledOp.clearDisplay] }
  initPwMode (showNow (clk 2) (clk 3) (showDHT (clk 0) (clk 1) w2))

/-! ## Runs -/

/-- What can happen next: a tick of `waitTimer`, a tick of `dht22Ticker`, a byte
arriving in the receive buffer of `bt` between two iterations, or one loop
iteration, during which the bytes `inp.late` arrive too late to be drained by it. -/
inductive Event
  | tick
  | dhtTick
  | rx (c : Char)
  | iter (inp : LoopInput)

def step (w : World) : Event → World
  | Event.tick => waitTimerHandler w
  | Event.dhtTick => setDHTReadFlag w
  | Event.rx c => { w with bt := w.bt ++ [c] }
  | Event.iter inp => { loopBody inp w with bt := (loopBody inp w).bt ++ inp.late }

def run (es : List Event) (w : World) : World := es.foldl step w

/-- Number of `waitTimer` ticks in a run. -/
def ticks : List Event → Nat
  | [] => 0
  | Event.tick :: es => ticks es + 1
  | _ :: es => ticks es

/-! ## Concrete worlds and inputs for the examples -/

/-- An iteration input with every clock reading `0`, both buttons released and the
joystick centred. -/
def idleInput : LoopInput := { clk := fun _ => 0, btnBus := 3, xAxis := 50, yAxis := 50 }

/-- The door closed with the bytes `'x'`, `'o'` waiting in the serial buffer. -/
def closedXO : World := { boot 0 0 with bt := ['x', 'o'] }

/-- The door closed with the byte `'x'` waiting in the serial buffer. -/
def closedX : World := { boot 0 0 with bt := ['x'] }

/-- The door open with the full hold countdown and the bytes `'o'`, `'x'` waiting. -/
def openedHold : World :=
  { boot 0 0 with state := DoorState.OPENED, wait_time := 30, bt := ['o', 'x'] }

/-- An iteration input at time 1000 with button 2 down and button 1 up. -/
def btn2Input : LoopInput := { clk := fun _ => 1000, btnBus := 1, xAxis := 50, yAxis := 50 }

/-- A run is quiet when no `'c'` byte arrives in it, between or during its iterations, and
none of its iterations gets a `BTN2` event from the debouncer. -/
def quiet : List Event → World → Bool
  | [], _ => true
  | Event.rx c :: es, w => decide (c ≠ 'c') && quiet es (step w (Event.rx c))
  | Event.iter inp :: es, w =>
    decide (buttonEvent inp w ≠ BTN2) && decide ('c' ∉ inp.late) &&
      quiet es (step w (Event.iter inp))
  | e :: es, w => quiet es (step w e)

/-- A world in the last moment of `OPENING`: the run countdown has expired. -/
def openingDone : World := { boot 0 0 with state := DoorState.OPENING, wait_time := 0 }

/-- One sub-mode tick at time `t` with the joystick channels at `x`, `y`: every clock
reading of the tick is `t`. -/
def pwTick (w : World) (s : Int × Int × Int) : World :=
  doPwModeOperation s.1 s.1 s.1 s.1 s.2.1 s.2.2 w

/-- Joystick samples that dial 1, 2, 3, 4 into slots 0..3, one per second: a first centred
sample, then up, right, up twice, right, up three times, right, up four times. -/
def dial1234 : List (Int × Int × Int) :=
  [(0, 50, 50),
   (1000, 50, 0), (2000, 100, 50),
   (3000, 50, 0), (4000, 50, 0), (5000, 100, 50),
   (6000, 50, 0), (7000, 50, 0), (8000, 50, 0), (9000, 100, 50),
   (10000, 50, 0), (11000, 50, 0), (12000, 50, 0), (13000, 50, 0)]

/-- The reset sub-mode state with the joystick held up. -/
def pwUp : World := { initPwMode (boot 0 0) with yv := UP, last_change := some 0 }

/-- The reset sub-mode state with the joystick held down. -/
def pwDown : World := { initPwMode (boot 0 0) with yv := DOWN, last_change := some 0 }

/-- The cursor on the last slot with the joystick held right. -/
def pwRight : World :=
  { initPwMode (boot 0 0) with xv := RIGHT, currCursorPos := 3, last_change := some 0 }

/-- The cursor on the first slot with the joystick held left. -/
def pwLeft : World := { initPwMode (boot 0 0) with xv := LEFT, last_change := some 0 }

/-- A world in the last moment of `CLOSING`, with a dialled password left in the buffer. -/
def closingDone : World :=
  { boot 0 0 with state := DoorState.CLOSING, wait_time := 0, pw := ⟨1, 2, 3, 4⟩,
                  ppw := ⟨1, 2, 3, 4⟩, currCursorPos := 3, prevCursorPos := 3 }

/-- Raw level of button 1 on `btnBus`.  The inputs are active low (`btnPressed` reports
`~currState & 0x03`): a button is pressed when its bit is clear; bit 0 is button 1. -/
def pressed1 (bus : Int) : Bool := decide (bus % 2 = 0)

/-- Raw level of button 2 on `btnBus` (bit 1). -/
def pressed2 (bus : Int) : Bool := decide (bus / 2 % 2 = 0)

/-- Feeds timestamped bus samples `(current_time, btnBus)` to `getDebounceButton` one after
the other; the result pairs each timestamp with the value returned for it. -/
def debounceRun : List (Int × Int) → World → List (Int × Int)
  | [], _ => []
  | s :: ss, w =>
    (s.1, (getDebounceButton s.1 s.2 w).1) :: debounceRun ss (getDebounceButton s.1 s.2 w).2

/-- Button 1 is pressed and held; while it is held button 2 is pressed and released. -/
def heldWithTap : List (Int × Int) := [(1000, 2), (1100, 0), (1500, 2)]

/-- Button 1 is pressed, released, and pressed again half a second later. -/
def twoPresses : List (Int × Int) := [(1000, 2), (1100, 3), (1500, 2)]

/-- Button 1 is pressed and released, and button 2 is pressed 50 ms after the press. -/
def oneThenOther : List (Int × Int) := [(1000, 2), (1020, 3), (1050, 1)]

/-- The door closing with three ticks of the run window left. -/
def closingMid : World := { boot 0 0 with state := DoorState.CLOSING, wait_time := 3 }

/-- The door opening with three ticks of the run window left. -/
def openingMid : World := { boot 0 0 with state := DoorState.OPENING, wait_time := 3 }

/-- Three timer ticks followed by two idle iterations. -/
def travelOut : List Event :=
  [Event.tick, Event.tick, Event.tick, Event.iter idleInput, Event.iter idleInput]

/-- An `'o'` arrives while the door is opening; the door then opens and is closed again with
button 2. -/
def openThenClose : List Event :=
  Event.rx 'o' :: travelOut ++ [Event.iter btn2Input]

/-- An iteration input at time 1000 with button 2 down, during which a `'c'` arrives after the
drain loop has ended. -/
def btn2LateC : LoopInput :=
  { clk := fun _ => 1000, btnBus := 1, xAxis := 50, yAxis := 50, late := ['c'] }

/-- Five timer ticks followed by two idle iterations. -/
def openOut : List Event :=
  [Event.tick, Event.tick, Event.tick, Event.tick, Event.tick, Event.iter idleInput,
   Event.iter idleInput]

/-- Successor in the cycle `CLOSED -> OPENING -> OPENED -> CLOSING -> CLOSED`. -/
def DoorState.next : DoorState → DoorState
  | DoorState.CLOSED => DoorState.OPENING
  | DoorState.OPENING => DoorState.OPENED
  | DoorState.OPENED => DoorState.CLOSING
  | DoorState.CLOSING => DoorState.CLOSED

/-- Inputs of one sub-mode tick (`doPwModeOperation`): the clock readings taken by its two
rate limiters and the joystick channels after `int(raw * 100)`. -/
structure PwTick where
  tJ0 : Int
  tJ : Int
  tC0 : Int
  tC : Int
  x : Int
  y : Int

/-- One sub-mode tick. -/
def subTick (w : World) (s : PwTick) : World :=
  doPwModeOperation s.tJ0 s.tJ s.tC0 s.tC s.x s.y w

/-- A call of `changePWandCursor` at clock readings `s.1`, `s.2.1` with the axis variables
`xv`, `yv` holding the arbitrary values `s.2.2.1`, `s.2.2.2`. -/
def rawTick (w : World) (s : Int × Int × Int × Int) : World :=
  changePWandCursor s.1 s.2.1 { w with xv := s.2.2.1, yv := s.2.2.2 }

/-- Every digit of the array is in 0..9. -/
def Arr4.digits (a : Arr4) : Prop :=
  (0 ≤ a.a0 ∧ a.a0 ≤ 9) ∧ (0 ≤ a.a1 ∧ a.a1 ≤ 9) ∧ (0 ≤ a.a2 ∧ a.a2 ≤ 9) ∧
  (0 ≤ a.a3 ∧ a.a3 ≤ 9)

/-- The range invariant of the sub-mode: digits in 0..9, cursor in 0..3. -/
def pwInRange (w : World) : Prop :=
  w.pw.digits ∧ 0 ≤ w.currCursorPos ∧ w.currCursorPos ≤ 3

/-- Two sub-mode ticks one second apart: joystick up, then joystick right. -/
def upThenRight : List PwTick :=
  [⟨0, 0, 0, 0, 50, 50⟩, ⟨1000, 1000, 1000, 1000, 50, 0⟩, ⟨2000, 2000, 2000, 2000, 100, 50⟩]

/-- The door closed, one `'o'` waiting in the serial buffer, both rate limiters of the
sub-mode initialised at time 0. -/
def closedO : World := { boot 0 0 with bt := ['o'], last_read := some 0, last_change := some 0 }

/-- An iteration input at time 1000 with no button down and the joystick pushed up. -/
def upInput : LoopInput := { clk := fun _ => 1000, btnBus := 3, xAxis := 50, yAxis := 0 }

/-- The reset sub-mode state with the joystick held up and to the right at once. -/
def pwUpRight : World :=
  { initPwMode (boot 0 0) with xv := RIGHT, yv := UP, last_change := some 0 }

/-- Whether the buffer or the cursor of `w1` differs from that of `w`. -/
def edited (w w1 : World) : Bool :=
  decide (w1.pw ≠ w.pw ∨ w1.currCursorPos ≠ w.currCursorPos)

/-- Runs sub-mode ticks one after the other; the result pairs the time stamp of each tick
(the reading `tC` that `changePWandCursor` compares with its gate) with whether the tick
changed the buffer or the cursor. -/
def editLog : List PwTick → World → List (Int × Bool)
  | [], _ => []
  | s :: ss, w => (s.tC, edited w (subTick w s)) :: editLog ss (subTick w s)

/-- Joystick held up, ticks at 0, 600, 800 and 1200 ms. -/
def fastTicks : List PwTick :=
  [⟨0, 0, 0, 0, 50, 0⟩, ⟨600, 600, 600, 600, 50, 0⟩, ⟨800, 800, 800, 800, 50, 0⟩,
   ⟨1200, 1200, 1200, 1200, 50, 0⟩]

/-- The sub-mode after the first two of `fastTicks`: the tick at 600 ms has made an edit. -/
def afterEdit : World := (fastTicks.take 2).foldl subTick (initPwMode (boot 0 0))

/-- Button 1 is pressed and is still down at the next sample, 60 ms later (the 50 ms sleep of
`btnPressed` and the 10 ms sleep at the end of the loop body). -/
def heldTwoSamples : List (Int × Int) := [(1000, 2), (1060, 2)]

/-- The calls with which `displayPassword` draws slot `i` of buffer `pw` over shadow `ppw`,
if it draws it. -/
def glyphOps (pw ppw : Arr4) (i : Int) : List OledOp :=
  if pw.get i ≠ ppw.get i then
    [OledOp.setTextCursor (xp.get i) yp, OledOp.writeChar (0x30 + pw.get i)]
  else []

/-- The calls with which `displayCursor` draws the cursor, if it draws it. -/
def cursorOps (w : World) : List OledOp :=
  if w.currCursorPos ≠ w.prevCursorPos then
    (if w.prevCursorPos ≥ 0 then
      [OledOp.fillRect (xp.get w.prevCursorPos) CURSOR_Y_POS CURSOR_WIDTH CURSOR_HEIGHT 0]
     else []) ++
    [OledOp.fillRect (xp.get w.currCursorPos) CURSOR_Y_POS CURSOR_WIDTH CURSOR_HEIGHT 1,
     OledOp.display]
  else []

/-- Calls that change the picture or send it to the panel: everything except setting the
text size and the text cursor. -/
def OledOp.writes : OledOp → Bool
  | OledOp.setTextSize _ => false
  | OledOp.setTextCursor _ _ => false
  | _ => true

/-- One render of the sub-mode, as at the end of `doPwModeOperation`. -/
def render (w : World) : World := displayCursor (displayPassword w)

/-- A sub-mode state with two digits and the cursor not yet drawn. -/
def undrawn : World :=
  { initPwMode (boot 0 0) with pw := ⟨1, 0, 7, 0⟩, ppw := ⟨1, 0, 0, 9⟩, currCursorPos := 2,
                               prevCursorPos := 1 }

/-- Indicator and motor agree with the door state: `CLOSED` has LED value 1 and `OPENED` has 4,
both with the motor speed 0; the travel states have LED value 0. -/
def restInvariant (w : World) : Prop :=
  (w.state = DoorState.CLOSED → w.ledBus = 1 ∧ w.motorA._speed = 0) ∧
  (w.state = DoorState.OPENED → w.ledBus = 4 ∧ w.motorA._speed = 0) ∧
  (w.state = DoorState.OPENING ∨ w.state = DoorState.CLOSING → w.ledBus = 0)

/-- An `'o'` arrives, the door starts opening, five ticks pass and the door is open. -/
def openCycle : List Event :=
  [Event.rx 'o', Event.iter idleInput, Event.iter idleInput, Event.tick, Event.tick,
   Event.tick, Event.tick, Event.tick, Event.iter idleInput]

/-! ## Frame lemmas -/

@[simp] theorem readTempHumi_state (w : World) :
    (readTempHumi w).state = w.state := by
  simp only [readTempHumi]; split_ifs <;> rfl

@[simp] theorem readTempHumi_wait_time (w : World) :
    (readTempHumi w).wait_time = w.wait_time := by
  simp only [readTempHumi]; split_ifs <;> rfl

@[simp] theorem readTempHumi_bt (w : World) :
    (readTempHumi w).bt = w.bt := by
  simp only [readTempHumi]; split_ifs <;> rfl

@[simp] theorem readTempHumi_pw (w : World) :
    (readTempHumi w).pw = w.pw := by
  simp only [readTempHumi]; split_ifs <;> rfl

@[simp] theorem readTempHumi_currCursorPos (w : World) :
    (readTempHumi w).currCursorPos = w.currCursorPos := by
  simp only [readTempHumi]; split_ifs <;> rfl

@[simp] theorem showDHT_state (t0 t : Int) (w : World) :
    (showDHT t0 t w).state = w.state := by
  simp only [showDHT]; split_ifs <;> rfl

@[simp] theorem showDHT_wait_time (t0 t : Int) (w : World) :
    (showDHT t0 t w).wait_time = w.wait_time := by
  simp only [showDHT]; split_ifs <;> rfl

@[simp] theorem showDHT_bt (t0 t : Int) (w : World) :
    (showDHT t0 t w).bt = w.bt := by
  simp only [showDHT]; split_ifs <;> rfl

@[simp] theorem showDHT_pw (t0 t : Int) (w : World) :
    (showDHT t0 t w).pw = w.pw := by
  simp only [showDHT]; split_ifs <;> rfl

@[simp] theorem showDHT_currCursorPos (t0 t : Int) (w : World) :
    (showDHT t0 t w).currCursorPos = w.currCursorPos := by
  simp only [showDHT]; split_ifs <;> rfl

@[simp] theorem showNow_state (t0 t : Int) (w : World) :
    (showNow t0 t w).state = w.state := by
  simp only [showNow]; split_ifs <;> rfl

@[simp] theorem showNow_wait_time (t0 t : Int) (w : World) :
    (showNow t0 t w).wait_time = w.wait_time := by
  simp only [showNow]; split_ifs <;> rfl

@[simp] theorem showNow_bt (t0 t : Int) (w : World) :
    (showNow t0 t w).bt = w.bt := by
  simp only [showNow]; split_ifs <;> rfl

@[simp] theorem showNow_pw (t0 t : Int) (w : World) :
    (showNow t0 t w).pw = w.pw := by
  simp only [showNow]; split_ifs <;> rfl

@[simp] theorem showNow_currCursorPos (t0 t : Int) (w : World) :
    (showNow t0 t w).currCursorPos = w.currCursorPos := by
  simp only [showNow]; split_ifs <;> rfl

@[simp] theorem showNow_ppw (t0 t : Int) (w : World) :
    (showNow t0 t w).ppw = w.ppw := by
  simp only [showNow]; split_ifs <;> rfl

@[simp] theorem showNow_prevCursorPos (t0 t : Int) (w : World) :
    (showNow t0 t w).prevCursorPos = w.prevCursorPos := by
  simp only [showNow]; split_ifs <;> rfl

@[simp] theorem getDebounceButton_state (t b : Int) (w : World) :
    ((getDebounceButton t b w).2).state = w.state := by
  simp only [getDebounceButton, btnPressed]; split_ifs <;> rfl

@[simp] theorem getDebounceButton_wait_time (t b : Int) (w : World) :
    ((getDebounceButton t b w).2).wait_time = w.wait_time := by
  simp only [getDebounceButton, btnPressed]; split_ifs <;> rfl

@[simp] theorem getDebounceButton_bt (t b : Int) (w : World) :
    ((getDebounceButton t b w).2).bt = w.bt := by
  simp only [getDebounceButton, btnPressed]; split_ifs <;> rfl

@[simp] theorem getDebounceButton_pw (t b : Int) (w : World) :
    ((getDebounceButton t b w).2).pw = w.pw := by
  simp only [getDebounceButton, btnPressed]; split_ifs <;> rfl

@[simp] theorem getDebounceButton_currCursorPos (t b : Int) (w : World) :
    ((getDebounceButton t b w).2).currCursorPos = w.currCursorPos := by
  simp only [getDebounceButton, btnPressed]; split_ifs <;> rfl

@[simp] theorem getJoysticValue_state (t0 t x y : Int) (w : World) :
    (getJoysticValue t0 t x y w).state = w.state := by
  simp only [getJoysticValue]; split_ifs <;> rfl

@[simp] theorem getJoysticValue_wait_time (t0 t x y : Int) (w : World) :
    (getJoysticValue t0 t x y w).wait_time = w.wait_time := by
  simp only [getJoysticValue]; split_ifs <;> rfl

@[simp] theorem getJoysticValue_bt (t0 t x y : Int) (w : World) :
    (getJoysticValue t0 t x y w).bt = w.bt := by
  simp only [getJoysticValue]; split_ifs <;> rfl

@[simp] theorem getJoysticValue_pw (t0 t x y : Int) (w : World) :
    (getJoysticValue t0 t x y w).pw = w.pw := by
  simp only [getJoysticValue]; split_ifs <;> rfl

@[simp] theorem getJoysticValue_currCursorPos (t0 t x y : Int) (w : World) :
    (getJoysticValue t0 t x y w).currCursorPos = w.currCursorPos := by
  simp only [getJoysticValue]; split_ifs <;> rfl

@[simp] theorem changePWandCursor_state (t0 t : Int) (w : World) :
    (changePWandCursor t0 t w).state = w.state := by
  simp only [changePWandCursor]; split_ifs <;> rfl

@[simp] theorem changePWandCursor_wait_time (t0 t : Int) (w : World) :
    (changePWandCursor t0 t w).wait_time = w.wait_time := by
  simp only [changePWandCursor]; split_ifs <;> rfl

@[simp] theorem changePWandCursor_bt (t0 t : Int) (w : World) :
    (changePWandCursor t0 t w).bt = w.bt := by
  simp only [changePWandCursor]; split_ifs <;> rfl

@[simp] theorem displayCursor_state (w : World) :
    (displayCursor w).state = w.state := by
  simp only [displayCursor]; split_ifs <;> rfl

@[simp] theorem displayCursor_wait_time (w : World) :
    (displayCursor w).wait_time = w.wait_time := by
  simp only [displayCursor]; split_ifs <;> rfl

@[simp] theorem displayCursor_bt (w : World) :
    (displayCursor w).bt = w.bt := by
  simp only [displayCursor]; split_ifs <;> rfl

@[simp] theorem displayCursor_pw (w : World) :
    (displayCursor w).pw = w.pw := by
  simp only [displayCursor]; split_ifs <;> rfl

@[simp] theorem displayCursor_currCursorPos (w : World) :
    (displayCursor w).currCursorPos = w.currCursorPos := by
  simp only [displayCursor]; split_ifs <;> rfl

theorem displayPasswordStep_frame (s : Bool × World) (i : Int) :
    (displayPasswordStep s i).2.state = s.2.state ∧
    (displayPasswordStep s i).2.wait_time = s.2.wait_time ∧
    (displayPasswordStep s i).2.bt = s.2.bt ∧
    (displayPasswordStep s i).2.pw = s.2.pw ∧
    (displayPasswordStep s i).2.currCursorPos = s.2.currCursorPos := by
  simp only [displayPasswordStep]; split_ifs <;> simp

theorem displayPassword_frame (w : World) :
    (displayPassword w).state = w.state ∧ (displayPassword w).wait_time = w.wait_time ∧
    (displayPassword w).bt = w.bt ∧ (displayPassword w).pw = w.pw ∧
    (displayPassword w).currCursorPos = w.currCursorPos := by
  have h1 := displayPasswordStep_frame
  simp only [displayPassword, List.foldl]
  split_ifs <;> simp [h1]

@[simp] theorem displayPassword_state (w : World) : (displayPassword w).state = w.state :=
  (displayPassword_frame w).1

@[simp] theorem displayPassword_wait_time (w : World) :
    (displayPassword w).wait_time = w.wait_time :=
  (displayPassword_frame w).2.1

@[simp] theorem displayPassword_bt (w : World) : (displayPassword w).bt = w.bt :=
  (displayPassword_frame w).2.2.1

@[simp] theorem displayPassword_pw (w : World) : (displayPassword w).pw = w.pw :=
  (displayPassword_frame w).2.2.2.1

@[simp] theorem displayPassword_currCursorPos (w : World) :
    (displayPassword w).currCursorPos = w.currCursorPos :=
  (displayPassword_frame w).2.2.2.2

@[simp] theorem doPwModeOperation_state (a b c d x y : Int) (w : World) :
    (doPwModeOperation a b c d x y w).state = w.state := by
  simp [doPwModeOperation]

@[simp] theorem doPwModeOperation_wait_time (a b c d x y : Int) (w : World) :
    (doPwModeOperation a b c d x y w).wait_time = w.wait_time := by
  simp [doPwModeOperation]

@[simp] theorem doPwModeOperation_bt (a b c d x y : Int) (w : World) :
    (doPwModeOperation a b c d x y w).bt = w.bt := by
  simp [doPwModeOperation]

@[simp] theorem loopHead_state (inp : LoopInput) (w : World) :
    (loopHead inp w).2.state = w.state := by
  simp [loopHead]

@[simp] theorem loopHead_wait_time (inp : LoopInput) (w : World) :
    (loopHead inp w).2.wait_time = w.wait_time := by
  simp [loopHead]

@[simp] theorem loopHead_bt (inp : LoopInput) (w : World) : (loopHead inp w).2.bt = w.bt := by
  simp [loopHead]

@[simp] theorem enterOPENING_state (t0 t : Int) (w : World) :
    (enterOPENING t0 t w).state = DoorState.OPENING := by
  simp [enterOPENING, cleanupPwMode]

@[simp] theorem enterOPENING_wait_time (t0 t : Int) (w : World) :
    (enterOPENING t0 t w).wait_time = RUN_WAIT_TIME := by
  simp [enterOPENING, cleanupPwMode]

@[simp] theorem enterOPENING_bt (t0 t : Int) (w : World) : (enterOPENING t0 t w).bt = w.bt := by
  simp [enterOPENING, cleanupPwMode]

@[simp] theorem enterCLOSING_state (t0 t : Int) (w : World) :
    (enterCLOSING t0 t w).state = DoorState.CLOSING := by
  simp [enterCLOSING]

@[simp] theorem enterCLOSING_wait_time (t0 t : Int) (w : World) :
    (enterCLOSING t0 t w).wait_time = RUN_WAIT_TIME := by
  simp [enterCLOSING]

@[simp] theorem enterCLOSING_bt (t0 t : Int) (w : World) : (enterCLOSING t0 t w).bt = w.bt := by
  simp [enterCLOSING]

@[simp] theorem changePW_state (w : World) : (changePW w).2.state = w.state := rfl

@[simp] theorem changePW_wait_time (w : World) : (changePW w).2.wait_time = w.wait_time := rfl

@[simp] theorem changePW_bt (w : World) : (changePW w).2.bt = w.bt := rfl

theorem drainCLOSED_state (clk : Nat → Int) (cs : List Char) (i : Nat) (w : World) :
    (drainCLOSED clk cs i w).state = if 'o' ∈ cs then DoorState.OPENING else w.state := by
  induction cs generalizing i w with
  | nil => simp [drainCLOSED]
  | cons c cs ih =>
    simp only [drainCLOSED, ih]
    by_cases hc : c = 'o'
    · subst hc
      simp
    · have : ¬ 'o' = c := fun h => hc h.symm
      simp [hc, this]

theorem drainCLOSED_wait_time (clk : Nat → Int) (cs : List Char) (i : Nat) (w : World) :
    (drainCLOSED clk cs i w).wait_time = if 'o' ∈ cs then RUN_WAIT_TIME else w.wait_time := by
  induction cs generalizing i w with
  | nil => simp [drainCLOSED]
  | cons c cs ih =>
    simp only [drainCLOSED, ih]
    by_cases hc : c = 'o'
    · subst hc
      simp
    · have : ¬ 'o' = c := fun h => hc h.symm
      simp [hc, this]

theorem drainCLOSED_bt (clk : Nat → Int) (cs : List Char) (i : Nat) (w : World)
    (h : w.bt = cs) : (drainCLOSED clk cs i w).bt = [] := by
  induction cs generalizing i w with
  | nil => simpa [drainCLOSED] using h
  | cons c cs ih =>
    simp only [drainCLOSED]
    apply ih
    split_ifs <;> simp

theorem drainOPENED_state (clk : Nat → Int) (cs : List Char) (i : Nat) (w : World) :
    (drainOPENED clk cs i w).state = if 'c' ∈ cs then DoorState.CLOSING else w.state := by
  induction cs generalizing i w with
  | nil => simp [drainOPENED]
  | cons c cs ih =>
    simp only [drainOPENED, ih]
    by_cases hc : c = 'c'
    · subst hc
      simp
    · have : ¬ 'c' = c := fun h => hc h.symm
      simp [hc, this]

theorem drainOPENED_wait_time (clk : Nat → Int) (cs : List Char) (i : Nat) (w : World) :
    (drainOPENED clk cs i w).wait_time = if 'c' ∈ cs then RUN_WAIT_TIME else w.wait_time := by
  induction cs generalizing i w with
  | nil => simp [drainOPENED]
  | cons c cs ih =>
    simp only [drainOPENED, ih]
    by_cases hc : c = 'c'
    · subst hc
      simp
    · have : ¬ 'c' = c := fun h => hc h.symm
      simp [hc, this]

theorem drainOPENED_bt (clk : Nat → Int) (cs : List Char) (i : Nat) (w : World)
    (h : w.bt = cs) : (drainOPENED clk cs i w).bt = [] := by
  induction cs generalizing i w with
  | nil => simpa [drainOPENED] using h
  | cons c cs ih =>
    simp only [drainOPENED]
    apply ih
    split_ifs <;> simp

/-- A buffer without `'c'` is drained in `OPENED` with no effect but emptying it. -/
theorem drainOPENED_ignored (clk : Nat → Int) (cs : List Char) (i : Nat) (w : World)
    (h : w.bt = cs) (hc : 'c' ∉ cs) : drainOPENED clk cs i w = { w with bt := [] } := by
  induction cs generalizing i w with
  | nil => simp [drainOPENED, ← h]
  | cons c cs ih =>
    have h1 : c ≠ 'c' := fun e => hc (by simp [e])
    have h2 : 'c' ∉ cs := fun e => hc (by simp [e])
    simp only [drainOPENED, h1, if_false]
    rw [ih (i + 1) _ rfl h2]

/-- State of the `CLOSED` case after its last statement. -/
theorem caseCLOSED_state (inp : LoopInput) (b : Int) (w : World) (h : w.state = DoorState.CLOSED) :
    (caseCLOSED inp b w).state =
      if 'o' ∈ w.bt ∨ (b = BTN1 ∧ (changePW (closedBeforeButtons inp w)).1 = true) ∨ b = BTN2
      then DoorState.OPENING else DoorState.CLOSED := by
  have hmid : (closedBeforeButtons inp w).state =
      if 'o' ∈ w.bt then DoorState.OPENING else DoorState.CLOSED := by
    simp [closedBeforeButtons, drainCLOSED_state, h]
  simp only [caseCLOSED]
  by_cases h2 : b = BTN2
  · simp [h2]
  · by_cases h1 : b = BTN1
    · by_cases hp : (changePW (closedBeforeButtons inp w)).1 = true
      · simp [h1, hp, BTN1, BTN2]
      · simp [h1, hp, hmid, BTN1, BTN2]
    · simp [h1, h2, hmid]

/-- C1: an iteration that starts in `CLOSED` ends in `OPENING` exactly when an `'o'` is
among the drained serial bytes, or the button event is `BTN1` and `changePW` reports a
correct password, or the button event is `BTN2`; otherwise it ends in `CLOSED`.  With the
bytes `'x'`, `'o'` buffered and no button event the door opens; with only `'x'` it stays
closed. -/
theorem closed_iteration_opens_iff (inp : LoopInput) (w : World)
    (h : w.state = DoorState.CLOSED) :
    ((loopBody inp w).state = DoorState.OPENING ↔
      ('o' ∈ w.bt ∨
       (buttonEvent inp w = BTN1 ∧
          (changePW (closedBeforeButtons inp (loopHead inp w).2)).1 = true) ∨
       buttonEvent inp w = BTN2)) ∧
    ((loopBody inp w).state ≠ DoorState.OPENING → (loopBody inp w).state = DoorState.CLOSED) ∧
    (w.bt = ['x', 'o'] → buttonEvent inp w = NONE →
      (loopBody inp w).state = DoorState.OPENING) ∧
    (w.bt = ['x'] → buttonEvent inp w = NONE →
      (loopBody inp w).state = DoorState.CLOSED) := by
  have hs : (loopHead inp w).2.state = DoorState.CLOSED := by simp [h]
  have hl : (loopBody inp w).state =
      if 'o' ∈ w.bt ∨
         (buttonEvent inp w = BTN1 ∧
            (changePW (closedBeforeButtons inp (loopHead inp w).2)).1 = true) ∨
         buttonEvent inp w = BTN2
      then DoorState.OPENING else DoorState.CLOSED := by
    have := caseCLOSED_state inp (loopHead inp w).1 (loopHead inp w).2 hs
    simp only [loopHead_bt] at this
    simp only [loopBody, hs, buttonEvent]
    exact this
  refine ⟨?_, ?_, ?_, ?_⟩
  · rw [hl]; split_ifs with hc <;> simp [hc]
  · rw [hl]; split_ifs with hc <;> simp
  · intro hb hn
    rw [hl]; simp [hb]
  · intro hb hn
    rw [hl]; simp [hb, hn, NONE, BTN1, BTN2]

theorem closed_iteration_opens_iff_witness :
    closedXO.state = DoorState.CLOSED ∧
    (loopBody idleInput closedXO).state = DoorState.OPENING ∧
    (loopBody idleInput closedX).state = DoorState.CLOSED :=
  ⟨rfl, (closed_iteration_opens_iff idleInput closedXO rfl).2.2.1 rfl (by decide),
    (closed_iteration_opens_iff idleInput closedX rfl).2.2.2 rfl (by decide)⟩

/-- State of the `OPENED` case after its last statement. -/
theorem caseOPENED_state (inp : LoopInput) (b : Int) (w : World) (h : w.state = DoorState.OPENED) :
    (caseOPENED inp b w).state =
      if 'c' ∈ w.bt ∨ w.wait_time ≤ 0 ∨ b = BTN2 then DoorState.CLOSING
      else DoorState.OPENED := by
  simp only [caseOPENED, drainOPENED_wait_time]
  by_cases hc : 'c' ∈ w.bt
  · simp only [hc, if_true, true_or]
    split_ifs <;> simp [drainOPENED_state, hc]
  · simp only [hc, if_false, false_or]
    split_ifs <;> simp [drainOPENED_state, hc, h]

/-- C2: an iteration that starts in `OPENED` ends in `CLOSING` exactly when a `'c'` is among
the drained serial bytes, or the countdown is `<= 0`, or the button event is `BTN2`;
otherwise it ends in `OPENED`.  The case body does the same for every button value other
than `BTN2`, and when none of the three triggers is present the iteration changes nothing
beyond what the loop head does and emptying the serial buffer. -/
theorem opened_iteration_closes_iff (inp : LoopInput) (w : World)
    (h : w.state = DoorState.OPENED) :
    ((loopBody inp w).state = DoorState.CLOSING ↔
      ('c' ∈ w.bt ∨ w.wait_time ≤ 0 ∨ buttonEvent inp w = BTN2)) ∧
    ((loopBody inp w).state ≠ DoorState.CLOSING → (loopBody inp w).state = DoorState.OPENED) ∧
    (∀ b : Int, b ≠ BTN2 → caseOPENED inp b w = caseOPENED inp NONE w) ∧
    ('c' ∉ w.bt → 0 < w.wait_time → buttonEvent inp w ≠ BTN2 →
      loopBody inp w = { (loopHead inp w).2 with bt := [] }) := by
  have hs : (loopHead inp w).2.state = DoorState.OPENED := by simp [h]
  have hl : (loopBody inp w).state =
      if 'c' ∈ w.bt ∨ w.wait_time ≤ 0 ∨ buttonEvent inp w = BTN2 then DoorState.CLOSING
      else DoorState.OPENED := by
    have := caseOPENED_state inp (loopHead inp w).1 (loopHead inp w).2 hs
    simp only [loopHead_bt, loopHead_wait_time] at this
    simp only [loopBody, hs, buttonEvent]
    exact this
  refine ⟨?_, ?_, ?_, ?_⟩
  · rw [hl]; split_ifs with hc <;> simp [hc]
  · rw [hl]; split_ifs with hc <;> simp
  · intro b hb
    have hb2 : ¬ b = 2 := hb
    simp [caseOPENED, hb2, NONE, BTN2]
  · intro hc hw hb
    have hc1 : 'c' ∉ (loopHead inp w).2.bt := by simpa using hc
    have hd := drainOPENED_ignored inp.clk (loopHead inp w).2.bt 0 (loopHead inp w).2 rfl hc1
    have hb1 : ¬ (loopHead inp w).1 = BTN2 := hb
    simp only [loopBody, hs, caseOPENED, hd, loopHead_wait_time, not_le.mpr hw, hb1, or_self,
      if_false]

theorem opened_iteration_closes_iff_witness :
    openedHold.state = DoorState.OPENED ∧
    (loopBody idleInput openedHold).state = DoorState.OPENED ∧
    (loopBody btn2Input openedHold).state = DoorState.CLOSING :=
  ⟨rfl,
   (opened_iteration_closes_iff idleInput openedHold rfl).2.1
     (fun e => absurd ((opened_iteration_closes_iff idleInput openedHold rfl).1.mp e)
       (by decide)),
   (opened_iteration_closes_iff btn2Input openedHold rfl).1.mpr (Or.inr (Or.inr (by decide)))⟩

theorem melodyLoop_frame (m : Arr4) (n : Nat) (w : World) :
    (melodyLoop m n w).state = w.state ∧ (melodyLoop m n w).wait_time = w.wait_time ∧
    (melodyLoop m n w).bt = w.bt ∧ (melodyLoop m n w).pw = w.pw ∧
    (melodyLoop m n w).currCursorPos = w.currCursorPos := by
  induction n generalizing w with
  | zero => simp [melodyLoop]
  | succ n ih =>
    simp only [melodyLoop]
    have := ih { playMelody (m.get w.melody_cnt) w with
      melody_cnt := (playMelody (m.get w.melody_cnt) w).melody_cnt + 1 }
    simpa [playMelody] using this

@[simp] theorem melodyLoop_state (m : Arr4) (n : Nat) (w : World) :
    (melodyLoop m n w).state = w.state := (melodyLoop_frame m n w).1

@[simp] theorem melodyLoop_wait_time (m : Arr4) (n : Nat) (w : World) :
    (melodyLoop m n w).wait_time = w.wait_time := (melodyLoop_frame m n w).2.1

@[simp] theorem melodyLoop_bt (m : Arr4) (n : Nat) (w : World) :
    (melodyLoop m n w).bt = w.bt := (melodyLoop_frame m n w).2.2.1

@[simp] theorem initPwMode_state (w : World) : (initPwMode w).state = w.state := by
  simp [initPwMode, initPwModeStep, List.foldl]

@[simp] theorem initPwMode_wait_time (w : World) : (initPwMode w).wait_time = w.wait_time := by
  simp [initPwMode, initPwModeStep, List.foldl]

@[simp] theorem initPwMode_bt (w : World) : (initPwMode w).bt = w.bt := by
  simp [initPwMode, initPwModeStep, List.foldl]

theorem caseOPENING_state (inp : LoopInput) (w : World) (h : w.state = DoorState.OPENING) :
    (caseOPENING inp w).state =
      if w.wait_time ≤ 0 then DoorState.OPENED else DoorState.OPENING := by
  simp only [caseOPENING, melodyLoop_wait_time]
  split_ifs <;> simp [h]

theorem caseOPENING_wait_time (inp : LoopInput) (w : World) :
    (caseOPENING inp w).wait_time =
      if w.wait_time ≤ 0 then FORCE_WAIT_TIME else w.wait_time := by
  simp only [caseOPENING, melodyLoop_wait_time]
  split_ifs <;> simp

theorem caseOPENING_bt (inp : LoopInput) (w : World) : (caseOPENING inp w).bt = w.bt := by
  simp only [caseOPENING, melodyLoop_wait_time]
  split_ifs <;> simp

theorem caseCLOSING_state (inp : LoopInput) (w : World) (h : w.state = DoorState.CLOSING) :
    (caseCLOSING inp w).state =
      if w.wait_time ≤ 0 then DoorState.CLOSED else DoorState.CLOSING := by
  simp only [caseCLOSING, melodyLoop_wait_time]
  split_ifs <;> simp [h]

theorem caseCLOSING_wait_time (inp : LoopInput) (w : World) :
    (caseCLOSING inp w).wait_time = w.wait_time := by
  simp only [caseCLOSING, melodyLoop_wait_time]
  split_ifs <;> simp

theorem caseCLOSED_wait_time (inp : LoopInput) (b : Int) (w : World) :
    (caseCLOSED inp b w).wait_time =
      if 'o' ∈ w.bt ∨ (b = BTN1 ∧ (changePW (closedBeforeButtons inp w)).1 = true) ∨ b = BTN2
      then RUN_WAIT_TIME else w.wait_time := by
  have hmid : (closedBeforeButtons inp w).wait_time =
      if 'o' ∈ w.bt then RUN_WAIT_TIME else w.wait_time := by
    simp [closedBeforeButtons, drainCLOSED_wait_time]
  simp only [caseCLOSED]
  by_cases h2 : b = BTN2
  · simp [h2]
  · by_cases h1 : b = BTN1
    · by_cases hp : (changePW (closedBeforeButtons inp w)).1 = true
      · simp [h1, hp, BTN1, BTN2]
      · simp [h1, hp, hmid, BTN1, BTN2]
    · simp [h1, h2, hmid]

theorem caseOPENED_wait_time (inp : LoopInput) (b : Int) (w : World) :
    (caseOPENED inp b w).wait_time =
      if 'c' ∈ w.bt ∨ w.wait_time ≤ 0 ∨ b = BTN2 then RUN_WAIT_TIME else w.wait_time := by
  simp only [caseOPENED, drainOPENED_wait_time]
  by_cases hc : 'c' ∈ w.bt
  · simp only [hc, if_true, true_or]
    split_ifs <;> simp [drainOPENED_wait_time, hc]
  · simp only [hc, if_false, false_or]
    split_ifs <;> simp [drainOPENED_wait_time, hc]

/-- Door state after one iteration, by the state it starts in. -/
theorem loopBody_state (inp : LoopInput) (w : World) :
    (loopBody inp w).state =
      match w.state with
      | DoorState.CLOSED =>
        if 'o' ∈ w.bt ∨
           (buttonEvent inp w = BTN1 ∧
              (changePW (closedBeforeButtons inp (loopHead inp w).2)).1 = true) ∨
           buttonEvent inp w = BTN2
        then DoorState.OPENING else DoorState.CLOSED
      | DoorState.OPENING => if w.wait_time ≤ 0 then DoorState.OPENED else DoorState.OPENING
      | DoorState.OPENED =>
        if 'c' ∈ w.bt ∨ w.wait_time ≤ 0 ∨ buttonEvent inp w = BTN2 then DoorState.CLOSING
        else DoorState.OPENED
      | DoorState.CLOSING => if w.wait_time ≤ 0 then DoorState.CLOSED else DoorState.CLOSING := by
  have hs : (loopHead inp w).2.state = w.state := loopHead_state inp w
  cases h : w.state <;> rw [h] at hs <;> simp only [loopBody, hs, buttonEvent]
  · simpa using caseCLOSED_state inp (loopHead inp w).1 (loopHead inp w).2 hs
  · simpa using caseOPENED_state inp (loopHead inp w).1 (loopHead inp w).2 hs
  · simpa using caseCLOSING_state inp (loopHead inp w).2 hs
  · simpa using caseOPENING_state inp (loopHead inp w).2 hs

/-- Countdown after one iteration, by the state it starts in. -/
theorem loopBody_wait_time (inp : LoopInput) (w : World) :
    (loopBody inp w).wait_time =
      match w.state with
      | DoorState.CLOSED =>
        if 'o' ∈ w.bt ∨
           (buttonEvent inp w = BTN1 ∧
              (changePW (closedBeforeButtons inp (loopHead inp w).2)).1 = true) ∨
           buttonEvent inp w = BTN2
        then RUN_WAIT_TIME else w.wait_time
      | DoorState.OPENING => if w.wait_time ≤ 0 then FORCE_WAIT_TIME else w.wait_time
      | DoorState.OPENED =>
        if 'c' ∈ w.bt ∨ w.wait_time ≤ 0 ∨ buttonEvent inp w = BTN2 then RUN_WAIT_TIME
        else w.wait_time
      | DoorState.CLOSING => w.wait_time := by
  have hs : (loopHead inp w).2.state = w.state := loopHead_state inp w
  cases h : w.state <;> rw [h] at hs <;> simp only [loopBody, hs, buttonEvent]
  · simpa using caseCLOSED_wait_time inp (loopHead inp w).1 (loopHead inp w).2
  · simpa using caseOPENED_wait_time inp (loopHead inp w).1 (loopHead inp w).2
  · simpa using caseCLOSING_wait_time inp (loopHead inp w).2
  · simpa using caseOPENING_wait_time inp (loopHead inp w).2

/-- Serial buffer after one iteration: emptied in `CLOSED` and `OPENED`, untouched in the
travel states. -/
theorem loopBody_bt (inp : LoopInput) (w : World) :
    (loopBody inp w).bt =
      if w.state = DoorState.CLOSED ∨ w.state = DoorState.OPENED then [] else w.bt := by
  have hs : (loopHead inp w).2.state = w.state := loopHead_state inp w
  cases h : w.state <;> rw [h] at hs <;> simp only [loopBody, hs]
  · have h1 := drainCLOSED_bt inp.clk (loopHead inp w).2.bt 0 (loopHead inp w).2 rfl
    simp only [loopHead_bt] at h1
    rw [if_pos (by simp)]
    simp only [caseCLOSED, closedBeforeButtons]
    split_ifs <;> simp [h1]
  · have h1 := drainOPENED_bt inp.clk (loopHead inp w).2.bt 0 (loopHead inp w).2 rfl
    simp only [loopHead_bt] at h1
    rw [if_pos (by simp)]
    simp only [caseOPENED]
    split_ifs <;> simp [h1]
  · rw [if_neg (by simp)]
    simp only [caseCLOSING, melodyLoop_wait_time]
    split_ifs <;> simp
  · rw [if_neg (by simp)]
    simp [caseOPENING_bt]

theorem run_append (es fs : List Event) (w : World) :
    run (es ++ fs) w = run fs (run es w) := by
  simp [run, List.foldl_append]

theorem ticks_append (es fs : List Event) : ticks (es ++ fs) = ticks es + ticks fs := by
  induction es with
  | nil => simp [ticks]
  | cons e es ih =>
    cases e <;> simp [ticks, ih]
    omega

theorem ticks_replicate (n : Nat) : ticks (List.replicate n Event.tick) = n := by
  induction n with
  | zero => rfl
  | succ n ih => simp [List.replicate, ticks, ih]

theorem quiet_append (es fs : List Event) (w : World) :
    quiet (es ++ fs) w = (quiet es w && quiet fs (run es w)) := by
  induction es generalizing w with
  | nil => simp [quiet, run]
  | cons e es ih =>
    cases e <;> simp [quiet, ih, run, List.foldl, Bool.and_assoc]

theorem int32_of_range (x : Int) (h1 : -2147483648 ≤ x) (h2 : x ≤ 2147483647) :
    int32 x = x := by
  unfold int32
  omega

theorem step_iter_state (w : World) (inp : LoopInput) :
    (step w (Event.iter inp)).state = (loopBody inp w).state := rfl

theorem step_iter_wait_time (w : World) (inp : LoopInput) :
    (step w (Event.iter inp)).wait_time = (loopBody inp w).wait_time := rfl

theorem step_iter_bt (w : World) (inp : LoopInput) :
    (step w (Event.iter inp)).bt = (loopBody inp w).bt ++ inp.late := rfl

/-- While the hold countdown is positive at every iteration and the 32-bit counter does not
wrap, a quiet run that starts in `OPENED` stays there, and the countdown has dropped by the
number of ticks. -/
theorem opened_hold (pre : List Event) (w : World)
    (hs : w.state = DoorState.OPENED) (hc : 'c' ∉ w.bt) (hq : quiet pre w = true)
    (hi : ∀ p1 i p2, pre = p1 ++ Event.iter i :: p2 → (ticks p1 : Int) < w.wait_time)
    (hu : w.wait_time ≤ 2147483647) (hl : (ticks pre : Int) ≤ w.wait_time + 2147483648) :
    (run pre w).state = DoorState.OPENED ∧
    (run pre w).wait_time = w.wait_time - ticks pre ∧ 'c' ∉ (run pre w).bt := by
  induction pre generalizing w with
  | nil => simp [run, ticks, hs, hc]
  | cons e es ih =>
    have hrun : run (e :: es) w = run es (step w e) := rfl
    rw [hrun]
    cases e with
    | tick =>
      simp only [ticks, Nat.cast_add, Nat.cast_one] at hl
      have hw : (step w Event.tick).wait_time = w.wait_time - 1 := by
        simp only [step, waitTimerHandler]
        exact int32_of_range _ (by omega) (by omega)
      have h1 := ih (step w Event.tick) hs hc (by simpa [quiet] using hq)
        (fun p1 i p2 hp => by
          have := hi (Event.tick :: p1) i p2 (by simp [hp])
          simp only [ticks, Nat.cast_add, Nat.cast_one] at this
          rw [hw]
          omega)
        (by rw [hw]; omega) (by rw [hw]; omega)
      refine ⟨h1.1, ?_, h1.2.2⟩
      rw [h1.2.1, hw]
      simp only [ticks, Nat.cast_add, Nat.cast_one]
      omega
    | dhtTick =>
      have h1 := ih (step w Event.dhtTick) hs hc (by simpa [quiet] using hq)
        (fun p1 i p2 hp => by
          have := hi (Event.dhtTick :: p1) i p2 (by simp [hp])
          simpa [ticks, step, setDHTReadFlag] using this)
        hu (by simpa [ticks, step, setDHTReadFlag] using hl)
      refine ⟨h1.1, ?_, h1.2.2⟩
      rw [h1.2.1]
      simp [step, setDHTReadFlag, ticks]
    | rx c =>
      simp only [quiet, Bool.and_eq_true, decide_eq_true_eq] at hq
      have h1 := ih (step w (Event.rx c)) hs
        (by simp only [step, List.mem_append, List.mem_singleton, not_or]
            exact ⟨hc, fun e => hq.1 e.symm⟩)
        hq.2
        (fun p1 i p2 hp => by
          have := hi (Event.rx c :: p1) i p2 (by simp [hp])
          simpa [ticks, step] using this)
        hu (by simpa [ticks, step] using hl)
      refine ⟨h1.1, ?_, h1.2.2⟩
      rw [h1.2.1]
      simp [step, ticks]
    | iter inp =>
      simp only [quiet, Bool.and_eq_true, decide_eq_true_eq] at hq
      have hpos : (0 : Int) < w.wait_time := by
        have := hi [] inp es rfl
        simpa [ticks] using this
      have hno : ¬ ('c' ∈ w.bt ∨ w.wait_time ≤ 0 ∨ buttonEvent inp w = BTN2) := by
        rintro (h | h | h)
        · exact hc h
        · omega
        · exact hq.1.1 h
      have hst : (step w (Event.iter inp)).state = DoorState.OPENED := by
        rw [step_iter_state, loopBody_state, hs]; simp only [hno, if_false]
      have hwt : (step w (Event.iter inp)).wait_time = w.wait_time := by
        rw [step_iter_wait_time, loopBody_wait_time, hs]; simp only [hno, if_false]
      have hbt : (step w (Event.iter inp)).bt = inp.late := by
        rw [step_iter_bt, loopBody_bt, hs]; simp
      have h1 := ih (step w (Event.iter inp)) hst (by rw [hbt]; exact hq.1.2) hq.2
        (fun p1 i p2 hp => by
          have := hi (Event.iter inp :: p1) i p2 (by simp [hp])
          rw [hwt]
          simpa [ticks] using this)
        (by rw [hwt]; exact hu) (by rw [hwt]; simpa [ticks] using hl)
      refine ⟨h1.1, ?_, h1.2.2⟩
      rw [h1.2.1, hwt]
      simp [ticks]

/-- C3: auto-close.  Let an iteration move the door from `OPENING` to `OPENED`; it leaves the
countdown at 30.  In every quiet run from there (no `'c'` byte, no `BTN2` event), an iteration
made when fewer than 30 ticks have elapsed starts and ends in `OPENED`, and the first iteration
made when 30 or more ticks have elapsed ends in `CLOSING`.  The tick count stays below 2^31,
the range in which the 32-bit counter has not wrapped. -/
theorem auto_close_after_hold (inp0 : LoopInput) (w0 : World) (pre : List Event)
    (inp : LoopInput)
    (h0 : w0.state = DoorState.OPENING) (h1 : w0.wait_time ≤ 0) (hc : 'c' ∉ w0.bt)
    (hq : quiet (pre ++ [Event.iter inp]) (loopBody inp0 w0) = true) :
    (loopBody inp0 w0).state = DoorState.OPENED ∧
    (loopBody inp0 w0).wait_time = 30 ∧
    (ticks pre < 30 →
      (run pre (loopBody inp0 w0)).state = DoorState.OPENED ∧
      (run (pre ++ [Event.iter inp]) (loopBody inp0 w0)).state = DoorState.OPENED) ∧
    (30 ≤ ticks pre → ticks pre < 2147483648 →
      (∀ p1 i p2, pre = p1 ++ Event.iter i :: p2 → ticks p1 < 30) →
      (run (pre ++ [Event.iter inp]) (loopBody inp0 w0)).state = DoorState.CLOSING) := by
  have hst : (loopBody inp0 w0).state = DoorState.OPENED := by
    rw [loopBody_state, h0]; simp [h1]
  have hwt : (loopBody inp0 w0).wait_time = 30 := by
    rw [loopBody_wait_time, h0]; simp [h1, FORCE_WAIT_TIME]
  have hbt : 'c' ∉ (loopBody inp0 w0).bt := by
    rw [loopBody_bt, h0]; simpa using hc
  rw [quiet_append] at hq
  simp only [Bool.and_eq_true, quiet, decide_eq_true_eq, and_true] at hq
  have key : ticks pre < 2147483648 →
      (∀ p1 i p2, pre = p1 ++ Event.iter i :: p2 → ticks p1 < 30) →
      (run pre (loopBody inp0 w0)).state = DoorState.OPENED ∧
      (run pre (loopBody inp0 w0)).wait_time = 30 - ticks pre ∧
      'c' ∉ (run pre (loopBody inp0 w0)).bt := by
    intro hb hi
    have := opened_hold pre (loopBody inp0 w0) hst hbt hq.1
      (fun p1 i p2 hp => by rw [hwt]; exact_mod_cast hi p1 i p2 hp)
      (by rw [hwt]; decide) (by rw [hwt]; omega)
    rwa [hwt] at this
  refine ⟨hst, hwt, ?_, ?_⟩
  · intro hlt
    have hk := key (by omega) (fun p1 i p2 hp => by
      have : ticks pre = ticks p1 + ticks (Event.iter i :: p2) := by rw [hp, ticks_append]
      omega)
    refine ⟨hk.1, ?_⟩
    rw [run_append]
    show (loopBody inp (run pre (loopBody inp0 w0))).state = DoorState.OPENED
    rw [loopBody_state, hk.1]
    have hno : ¬ ('c' ∈ (run pre (loopBody inp0 w0)).bt ∨
        (run pre (loopBody inp0 w0)).wait_time ≤ 0 ∨
        buttonEvent inp (run pre (loopBody inp0 w0)) = BTN2) := by
      rintro (h | h | h)
      · exact hk.2.2 h
      · rw [hk.2.1] at h; omega
      · exact hq.2.1 h
    simp only [hno, if_false]
  · intro hge hb hi
    have hk := key hb hi
    rw [run_append]
    show (loopBody inp (run pre (loopBody inp0 w0))).state = DoorState.CLOSING
    rw [loopBody_state, hk.1]
    have hyes : (run pre (loopBody inp0 w0)).wait_time ≤ 0 := by rw [hk.2.1]; omega
    simp [hyes]

theorem auto_close_after_hold_witness :
    openingDone.state = DoorState.OPENING ∧ openingDone.wait_time ≤ 0 ∧
    (run (List.replicate 30 Event.tick ++ [Event.iter idleInput])
      (loopBody idleInput openingDone)).state = DoorState.CLOSING ∧
    (run ([Event.tick, Event.iter idleInput, Event.tick] ++ [Event.iter idleInput])
      (loopBody idleInput openingDone)).state = DoorState.OPENED :=
  ⟨rfl, by decide,
   (auto_close_after_hold idleInput openingDone (List.replicate 30 Event.tick) idleInput
      rfl (by decide) (by decide) (by decide)).2.2.2
      (by decide) (by decide)
      (fun p1 i p2 hp => by
        have hm : Event.iter i ∈ List.replicate 30 Event.tick := by rw [hp]; simp
        have := (List.mem_replicate.mp hm).2
        cases this),
   ((auto_close_after_hold idleInput openingDone
      [Event.tick, Event.iter idleInput, Event.tick] idleInput
      rfl (by decide) (by decide) (by decide)).2.2.1 (by decide)).2⟩

/-- While the countdown is positive, a run that starts in a travel state stays in it, whatever
arrives, and the countdown has dropped by the number of ticks. -/
theorem travel_hold (es : List Event) (w : World)
    (hs : w.state = DoorState.OPENING ∨ w.state = DoorState.CLOSING)
    (ht : (ticks es : Int) < w.wait_time) (hu : w.wait_time ≤ 2147483647) :
    (run es w).state = w.state ∧ (run es w).wait_time = w.wait_time - ticks es := by
  induction es generalizing w with
  | nil => simp [run, ticks]
  | cons e es ih =>
    have hrun : run (e :: es) w = run es (step w e) := rfl
    rw [hrun]
    cases e with
    | tick =>
      simp only [ticks, Nat.cast_add, Nat.cast_one] at ht ⊢
      have hn : (0 : Int) ≤ (ticks es : Int) := Int.natCast_nonneg _
      have hw : (step w Event.tick).wait_time = w.wait_time - 1 := by
        simp only [step, waitTimerHandler]
        exact int32_of_range _ (by omega) (by omega)
      have h1 := ih (step w Event.tick) hs (by rw [hw]; omega) (by rw [hw]; omega)
      rw [h1.1, h1.2, hw]
      exact ⟨rfl, by omega⟩
    | dhtTick =>
      simp only [ticks] at ht ⊢
      have h1 := ih (step w Event.dhtTick) hs ht hu
      rw [h1.1, h1.2]
      simp [step, setDHTReadFlag]
    | rx c =>
      simp only [ticks] at ht ⊢
      have h1 := ih (step w (Event.rx c)) hs ht hu
      rw [h1.1, h1.2]
      simp [step]
    | iter inp =>
      simp only [ticks] at ht ⊢
      have hpos : ¬ w.wait_time ≤ 0 := by
        have : (0 : Int) ≤ (ticks es : Int) := Int.natCast_nonneg _
        omega
      have hst : (step w (Event.iter inp)).state = w.state := by
        rw [step_iter_state, loopBody_state]
        rcases hs with h | h <;> rw [h] <;> simp [hpos]
      have hwt : (step w (Event.iter inp)).wait_time = w.wait_time := by
        rw [step_iter_wait_time, loopBody_wait_time]
        rcases hs with h | h
        · rw [h]; simp [hpos]
        · rw [h]
      have h1 := ih (step w (Event.iter inp)) (by rw [hst]; exact hs)
        (by rw [hwt]; exact ht) (by rw [hwt]; exact hu)
      rw [h1.1, h1.2, hst, hwt]
      exact ⟨rfl, rfl⟩

theorem int32_range (x : Int) : -2147483648 ≤ int32 x ∧ int32 x ≤ 2147483647 := by
  unfold int32
  omega

theorem int32_pred (x : Int) (n : Nat) : int32 (int32 (x - 1) - n) = int32 (x - (n + 1)) := by
  unfold int32
  omega

/-- Ticks alone leave the door state as it is and count `wait_time` down modulo 2^32. -/
theorem run_ticks (n : Nat) (w : World)
    (h1 : -2147483648 ≤ w.wait_time) (h2 : w.wait_time ≤ 2147483647) :
    (run (List.replicate n Event.tick) w).state = w.state ∧
    (run (List.replicate n Event.tick) w).wait_time = int32 (w.wait_time - n) := by
  induction n generalizing w with
  | zero =>
    refine ⟨rfl, ?_⟩
    simp only [List.replicate, run, List.foldl, Nat.cast_zero, sub_zero]
    exact (int32_of_range _ h1 h2).symm
  | succ n ih =>
    have hrun : run (List.replicate (n + 1) Event.tick) w =
        run (List.replicate n Event.tick) (step w Event.tick) := rfl
    have hr := int32_range (w.wait_time - 1)
    have h := ih (step w Event.tick) hr.1 hr.2
    rw [hrun, h.1, h.2]
    refine ⟨rfl, ?_⟩
    simp only [step, waitTimerHandler, Nat.cast_add, Nat.cast_one]
    exact int32_pred _ _

/-- C4 (counterexample): the door is closed and nothing happens but timer ticks.  After 2^31
ticks the countdown is -2147483648, the least 32-bit value, and the next tick does not lower it
by 1 but sets it to 2147483647. -/
theorem tick_wraps_at_least_int :
    (boot 0 0).state = DoorState.CLOSED ∧ (boot 0 0).wait_time = 0 ∧
    (run (List.replicate 2147483648 Event.tick) (boot 0 0)).state = DoorState.CLOSED ∧
    (run (List.replicate 2147483648 Event.tick) (boot 0 0)).wait_time = -2147483648 ∧
    (waitTimerHandler { boot 0 0 with wait_time := -2147483648 }).wait_time = 2147483647 ∧
    (waitTimerHandler { boot 0 0 with wait_time := -2147483648 }).wait_time ≠
      -2147483648 - 1 := by
  have h := run_ticks 2147483648 (boot 0 0) (by decide) (by decide)
  refine ⟨rfl, rfl, h.1, ?_, by decide, by decide⟩
  rw [h.2]
  decide

/-- C4 (amended): a timer tick leaves the door state alone and lowers the countdown by
exactly 1 whenever the countdown is above -2147483648, the least value of the 32-bit counter;
from that value the tick sets it to 2147483647.  An
iteration that starts in `OPENING` ends in `OPENED` exactly when the countdown is `<= 0`, and
otherwise stays in `OPENING`; likewise `CLOSING` and `CLOSED`; the outcome is the same for
every input and every content of the serial buffer.  After an iteration that enters `OPENING`
or `CLOSING`, every run with fewer than 5 ticks is still in that state. -/
theorem travel_states_gated_by_countdown :
    (∀ w : World, (waitTimerHandler w).state = w.state ∧
      (-2147483648 < w.wait_time → w.wait_time ≤ 2147483647 →
        (waitTimerHandler w).wait_time = w.wait_time - 1) ∧
      (w.wait_time = -2147483648 → (waitTimerHandler w).wait_time = 2147483647)) ∧
    (∀ (inp : LoopInput) (w : World), w.state = DoorState.OPENING →
      ((loopBody inp w).state = DoorState.OPENED ↔ w.wait_time ≤ 0) ∧
      ((loopBody inp w).state ≠ DoorState.OPENED → (loopBody inp w).state = DoorState.OPENING)) ∧
    (∀ (inp : LoopInput) (w : World), w.state = DoorState.CLOSING →
      ((loopBody inp w).state = DoorState.CLOSED ↔ w.wait_time ≤ 0) ∧
      ((loopBody inp w).state ≠ DoorState.CLOSED → (loopBody inp w).state = DoorState.CLOSING)) ∧
    (∀ (inp inp1 : LoopInput) (w : World) (bytes : List Char),
      w.state = DoorState.OPENING ∨ w.state = DoorState.CLOSING →
      (loopBody inp1 { w with bt := bytes }).state = (loopBody inp w).state) ∧
    (∀ (inp0 : LoopInput) (w0 : World) (es : List Event),
      (loopBody inp0 w0).state ≠ w0.state →
      (loopBody inp0 w0).state = DoorState.OPENING ∨
        (loopBody inp0 w0).state = DoorState.CLOSING →
      ticks es < 5 →
      (run es (loopBody inp0 w0)).state = (loopBody inp0 w0).state) := by
  refine ⟨fun w => ⟨rfl, fun h1 h2 => ?_, fun h => ?_⟩, ?_, ?_, ?_, ?_⟩
  · exact int32_of_range _ (by omega) (by omega)
  · simp only [waitTimerHandler, h]
    decide
  · intro inp w h
    rw [loopBody_state, h]
    by_cases hw : w.wait_time ≤ 0 <;> simp [hw]
  · intro inp w h
    rw [loopBody_state, h]
    by_cases hw : w.wait_time ≤ 0 <;> simp [hw]
  · intro inp inp1 w bytes h
    rw [loopBody_state, loopBody_state]
    rcases h with h | h <;> simp [h]
  · intro inp0 w0 es hne htr hlt
    have hwt : (loopBody inp0 w0).wait_time = 5 := by
      have hst := loopBody_state inp0 w0
      have hw := loopBody_wait_time inp0 w0
      cases h : w0.state <;> rw [h] at hst hw <;> simp only [] at hst hw
      · split_ifs at hst hw with hc
        · exact hw
        · exact absurd (hst.trans h.symm) hne
      · split_ifs at hst hw with hc
        · exact hw
        · exact absurd (hst.trans h.symm) hne
      · split_ifs at hst with hc
        · rw [hst] at htr; simp at htr
        · exact absurd (hst.trans h.symm) hne
      · split_ifs at hst with hc
        · rw [hst] at htr; simp at htr
        · exact absurd (hst.trans h.symm) hne
    exact (travel_hold es (loopBody inp0 w0) htr (by rw [hwt]; exact_mod_cast hlt)
      (by rw [hwt]; decide)).1

theorem travel_states_gated_by_countdown_witness :
    (loopBody idleInput closedXO).state ≠ closedXO.state ∧
    (run [Event.tick, Event.iter idleInput, Event.tick, Event.rx 'c', Event.tick, Event.tick,
        Event.iter btn2Input] (loopBody idleInput closedXO)).state = DoorState.OPENING ∧
    (loopBody idleInput openingDone).state = DoorState.OPENED ∧
    (-2147483648 < openedHold.wait_time ∧ openedHold.wait_time ≤ 2147483647) ∧
    (waitTimerHandler openedHold).wait_time = 29 :=
  ⟨by decide,
   (travel_states_gated_by_countdown.2.2.2.2 idleInput closedXO
      [Event.tick, Event.iter idleInput, Event.tick, Event.rx 'c', Event.tick, Event.tick,
        Event.iter btn2Input] (by decide) (by decide) (by decide)).trans (by decide),
   (travel_states_gated_by_countdown.2.1 idleInput openingDone rfl).1.mpr (by decide),
   ⟨by decide, by decide⟩,
   ((travel_states_gated_by_countdown.1 openedHold).2.1 (by decide) (by decide)).trans
     (by decide)⟩

theorem isRightLoop_iff (pw : Arr4) :
    isRightLoop pw [0, 1, 2, 3] = true ↔
      ∀ i : Int, 0 ≤ i → i ≤ 3 → pw.get i = rpw.get i := by
  constructor
  · intro h i h0 h3
    simp only [isRightLoop] at h
    have hi : i = 0 ∨ i = 1 ∨ i = 2 ∨ i = 3 := by omega
    rcases hi with rfl | rfl | rfl | rfl <;> split_ifs at h <;> simp_all
  · intro h
    have h0 := h 0 (by omega) (by omega)
    have h1 := h 1 (by omega) (by omega)
    have h2 := h 2 (by omega) (by omega)
    have h3 := h 3 (by omega) (by omega)
    simp [isRightLoop, h0, h1, h2, h3]

set_option maxRecDepth 100000 in
theorem dial1234_pw : (dial1234.foldl pwTick (initPwMode (boot 0 0))).pw = ⟨1, 2, 3, 4⟩ := by
  decide

/-- C5: `changePW` returns `true`, and `isRight` leaves `isPWRight` true, exactly when
`pw[i] = rpw[i]` for every `i` in 0..3.  With the reference 1,2,3,4 the buffer left by
`initPwMode` is reported incorrect, and the buffer reached from it by dialling 1, 2, 3, 4
into slots 0..3 with joystick ticks is reported correct. -/
theorem password_check_elementwise :
    (∀ w : World, ((changePW w).1 = true ↔
        ∀ i : Int, 0 ≤ i → i ≤ 3 → w.pw.get i = rpw.get i) ∧
      (isRight w).isPWRight = (changePW w).1 ∧ (changePW w).2.pw = w.pw) ∧
    rpw = ⟨1, 2, 3, 4⟩ ∧
    (∀ w : World, (initPwMode w).pw = ⟨0, 0, 0, 0⟩ ∧ (changePW (initPwMode w)).1 = false) ∧
    (dial1234.foldl pwTick (initPwMode (boot 0 0))).pw = ⟨1, 2, 3, 4⟩ ∧
    (changePW (dial1234.foldl pwTick (initPwMode (boot 0 0)))).1 = true := by
  refine ⟨fun w => ⟨?_, rfl, rfl⟩, rfl, fun w => ?_, dial1234_pw, ?_⟩
  · exact isRightLoop_iff w.pw
  · have hp : (initPwMode w).pw = ⟨0, 0, 0, 0⟩ := by
      simp [initPwMode, initPwModeStep, List.foldl, Arr4.set]
    refine ⟨hp, ?_⟩
    simp [changePW, isRight, hp, isRightLoop, Arr4.get, rpw]
  · simp [changePW, isRight, dial1234_pw, isRightLoop, Arr4.get, rpw]

theorem password_check_elementwise_witness :
    (changePW (initPwMode (boot 0 0))).1 = false ∧
    (changePW (dial1234.foldl pwTick (initPwMode (boot 0 0)))).1 = true :=
  ⟨(password_check_elementwise.2.2.1 (boot 0 0)).2, password_check_elementwise.2.2.2.2⟩

theorem Arr4.get_set_same (a : Arr4) (i v : Int) (h0 : 0 ≤ i) (h3 : i ≤ 3) :
    (a.set i v).get i = v := by
  have hi : i = 0 ∨ i = 1 ∨ i = 2 ∨ i = 3 := by omega
  rcases hi with rfl | rfl | rfl | rfl <;> simp [Arr4.get, Arr4.set]

theorem Arr4.get_set_other (a : Arr4) (i j v : Int) (h : j ≠ i) :
    (a.set i v).get j = a.get j := by
  simp only [Arr4.get, Arr4.set]
  split_ifs <;> simp_all

/-- With both axes neutral a tick changes nothing but the initialisation of its gate. -/
theorem changePWandCursor_neutral (t0 t : Int) (w : World)
    (hx : w.xv = NEUTRAL) (hy : w.yv = NEUTRAL) :
    changePWandCursor t0 t w = { w with last_change := some (w.last_change.getD t0) } := by
  simp [changePWandCursor, hx, hy]

theorem changePWandCursor_neutral_repeat (ts : List (Int × Int)) (w : World)
    (hx : w.xv = NEUTRAL) (hy : w.yv = NEUTRAL) :
    (ts.foldl (fun v s => changePWandCursor s.1 s.2 v) w).pw = w.pw ∧
    (ts.foldl (fun v s => changePWandCursor s.1 s.2 v) w).currCursorPos = w.currCursorPos := by
  induction ts generalizing w with
  | nil => simp
  | cons s ts ih =>
    simp only [List.foldl, changePWandCursor_neutral s.1 s.2 w hx hy]
    exact ih _ hx hy

/-- C6: a sub-mode tick with the gate open, digits in 0..9 and the cursor `c` in 0..3.  With
the vertical axis at `UP` the digit `d` at slot `c` becomes `(d+1) mod 10`, with `DOWN` it
becomes `(d+9) mod 10`; every other slot and the cursor are unchanged.  With both axes
neutral, any number of ticks, at any times, leaves the buffer and the cursor unchanged. -/
theorem digit_edit_wraps :
    (∀ (w : World) (t0 t : Int),
      ¬ (t - w.last_change.getD t0 < 500) →
      0 ≤ w.currCursorPos → w.currCursorPos ≤ 3 →
      (∀ i : Int, 0 ≤ i → i ≤ 3 → 0 ≤ w.pw.get i ∧ w.pw.get i ≤ 9) →
      (w.yv = UP →
        (changePWandCursor t0 t w).pw.get w.currCursorPos =
          (w.pw.get w.currCursorPos + 1) % 10 ∧
        (∀ j : Int, j ≠ w.currCursorPos → (changePWandCursor t0 t w).pw.get j = w.pw.get j) ∧
        (changePWandCursor t0 t w).currCursorPos = w.currCursorPos) ∧
      (w.yv = DOWN →
        (changePWandCursor t0 t w).pw.get w.currCursorPos =
          (w.pw.get w.currCursorPos + 9) % 10 ∧
        (∀ j : Int, j ≠ w.currCursorPos → (changePWandCursor t0 t w).pw.get j = w.pw.get j) ∧
        (changePWandCursor t0 t w).currCursorPos = w.currCursorPos)) ∧
    (∀ (w : World) (ts : List (Int × Int)), w.xv = NEUTRAL → w.yv = NEUTRAL →
      (ts.foldl (fun v s => changePWandCursor s.1 s.2 v) w).pw = w.pw ∧
      (ts.foldl (fun v s => changePWandCursor s.1 s.2 v) w).currCursorPos =
        w.currCursorPos) := by
  refine ⟨fun w t0 t hg h0 h3 hd => ⟨fun hy => ?_, fun hy => ?_⟩,
    fun w ts hx hy => changePWandCursor_neutral_repeat ts w hx hy⟩
  · have hd1 := hd w.currCursorPos h0 h3
    have hpw : (changePWandCursor t0 t w).pw =
        w.pw.set w.currCursorPos
          (if w.pw.get w.currCursorPos + 1 > 9 then 0 else w.pw.get w.currCursorPos + 1) := by
      simp [changePWandCursor, hg, hy, UP, NEUTRAL]
    have hcu : (changePWandCursor t0 t w).currCursorPos = w.currCursorPos := by
      simp [changePWandCursor, hg, hy, UP, NEUTRAL]
    refine ⟨?_, fun j hj => ?_, hcu⟩
    · rw [hpw, Arr4.get_set_same _ _ _ h0 h3]
      split_ifs <;> omega
    · rw [hpw, Arr4.get_set_other _ _ _ _ hj]
  · have hd1 := hd w.currCursorPos h0 h3
    have hpw : (changePWandCursor t0 t w).pw =
        w.pw.set w.currCursorPos
          (if w.pw.get w.currCursorPos - 1 < 0 then 9 else w.pw.get w.currCursorPos - 1) := by
      simp [changePWandCursor, hg, hy, UP, DOWN, NEUTRAL]
    have hcu : (changePWandCursor t0 t w).currCursorPos = w.currCursorPos := by
      simp [changePWandCursor, hg, hy, UP, DOWN, NEUTRAL]
    refine ⟨?_, fun j hj => ?_, hcu⟩
    · rw [hpw, Arr4.get_set_same _ _ _ h0 h3]
      split_ifs <;> omega
    · rw [hpw, Arr4.get_set_other _ _ _ _ hj]

theorem digit_edit_wraps_witness :
    (changePWandCursor 0 500 pwUp).pw.get pwUp.currCursorPos = (0 + 1) % 10 ∧
    (changePWandCursor 0 500 pwDown).pw.get pwDown.currCursorPos = (0 + 9) % 10 :=
  ⟨((digit_edit_wraps.1 pwUp 0 500 (by decide) (by decide) (by decide)
      (fun i h0 h3 => by
        have hi : i = 0 ∨ i = 1 ∨ i = 2 ∨ i = 3 := by omega
        rcases hi with rfl | rfl | rfl | rfl <;> decide)).1 rfl).1,
   ((digit_edit_wraps.1 pwDown 0 500 (by decide) (by decide) (by decide)
      (fun i h0 h3 => by
        have hi : i = 0 ∨ i = 1 ∨ i = 2 ∨ i = 3 := by omega
        rcases hi with rfl | rfl | rfl | rfl <;> decide)).2 rfl).1⟩

/-- C7: a sub-mode tick with the gate open, the vertical axis neutral and the cursor `c` in
0..3.  With the horizontal axis at `RIGHT` the cursor becomes `(c+1) mod 4`, with `LEFT` it
becomes `(c+3) mod 4`; the password buffer is unchanged. -/
theorem cursor_move_wraps (w : World) (t0 t : Int)
    (hg : ¬ (t - w.last_change.getD t0 < 500)) (hy : w.yv = NEUTRAL)
    (h0 : 0 ≤ w.currCursorPos) (h3 : w.currCursorPos ≤ 3) :
    (w.xv = RIGHT →
      (changePWandCursor t0 t w).currCursorPos = (w.currCursorPos + 1) % 4 ∧
      (changePWandCursor t0 t w).pw = w.pw) ∧
    (w.xv = LEFT →
      (changePWandCursor t0 t w).currCursorPos = (w.currCursorPos + 3) % 4 ∧
      (changePWandCursor t0 t w).pw = w.pw) := by
  constructor
  · intro hx
    have hcu : (changePWandCursor t0 t w).currCursorPos =
        if w.currCursorPos + 1 > 3 then 0 else w.currCursorPos + 1 := by
      simp [changePWandCursor, hg, hy, hx, RIGHT, LEFT, NEUTRAL]
    refine ⟨?_, by simp [changePWandCursor, hg, hy, hx, RIGHT, LEFT, NEUTRAL]⟩
    rw [hcu]
    split_ifs <;> omega
  · intro hx
    have hcu : (changePWandCursor t0 t w).currCursorPos =
        if w.currCursorPos - 1 < 0 then 3 else w.currCursorPos - 1 := by
      simp [changePWandCursor, hg, hy, hx, RIGHT, LEFT, NEUTRAL]
    refine ⟨?_, by simp [changePWandCursor, hg, hy, hx, RIGHT, LEFT, NEUTRAL]⟩
    rw [hcu]
    split_ifs <;> omega

theorem cursor_move_wraps_witness :
    (changePWandCursor 0 500 pwRight).currCursorPos = (3 + 1) % 4 ∧
    (changePWandCursor 0 500 pwLeft).currCursorPos = (0 + 3) % 4 :=
  ⟨((cursor_move_wraps pwRight 0 500 (by decide) rfl (by decide) (by decide)).1 rfl).1,
   ((cursor_move_wraps pwLeft 0 500 (by decide) rfl (by decide) (by decide)).2 rfl).1⟩

/-- What `initPwMode` leaves in the sub-mode variables. -/
theorem initPwMode_reset (w : World) :
    (initPwMode w).pw = ⟨0, 0, 0, 0⟩ ∧ (initPwMode w).currCursorPos = 0 ∧
    (initPwMode w).ppw = ⟨-1, -1, -1, -1⟩ ∧ (initPwMode w).prevCursorPos = -1 ∧
    (initPwMode w).isPWRight = false := by
  simp [initPwMode, initPwModeStep, List.foldl, Arr4.set]

/-- C8: an iteration that moves the door from `CLOSING` to `CLOSED` ends with the password
buffer 0,0,0,0 and the cursor at 0, whatever they were before; the render shadows are reset
to -1 as well.  The move happens exactly when the countdown is `<= 0`. -/
theorem closing_to_closed_resets_password (inp : LoopInput) (w : World)
    (h : w.state = DoorState.CLOSING) :
    ((loopBody inp w).state = DoorState.CLOSED ↔ w.wait_time ≤ 0) ∧
    ((loopBody inp w).state = DoorState.CLOSED →
      (loopBody inp w).pw = ⟨0, 0, 0, 0⟩ ∧ (loopBody inp w).currCursorPos = 0 ∧
      (loopBody inp w).ppw = ⟨-1, -1, -1, -1⟩ ∧ (loopBody inp w).prevCursorPos = -1) ∧
    (∀ v : World, (initPwMode v).pw = ⟨0, 0, 0, 0⟩ ∧ (initPwMode v).currCursorPos = 0 ∧
      (initPwMode v).ppw = ⟨-1, -1, -1, -1⟩ ∧ (initPwMode v).prevCursorPos = -1) := by
  have hiff : (loopBody inp w).state = DoorState.CLOSED ↔ w.wait_time ≤ 0 := by
    rw [loopBody_state, h]
    by_cases hw : w.wait_time ≤ 0 <;> simp [hw]
  refine ⟨hiff, fun hc => ?_, fun v => ?_⟩
  · have hw := hiff.mp hc
    have hs : (loopHead inp w).2.state = DoorState.CLOSING := by simp [h]
    have hb : loopBody inp w = caseCLOSING inp (loopHead inp w).2 := by
      simp only [loopBody, hs]
    rw [hb]
    simp only [caseCLOSING, melodyLoop_wait_time, loopHead_wait_time, hw, if_true]
    have key := initPwMode_reset
    exact ⟨(key _).1, (key _).2.1, (key _).2.2.1, (key _).2.2.2.1⟩
  · have := initPwMode_reset v
    exact ⟨this.1, this.2.1, this.2.2.1, this.2.2.2.1⟩

theorem closing_to_closed_resets_password_witness :
    closingDone.state = DoorState.CLOSING ∧ closingDone.pw = ⟨1, 2, 3, 4⟩ ∧
    (loopBody idleInput closingDone).state = DoorState.CLOSED ∧
    (loopBody idleInput closingDone).pw = ⟨0, 0, 0, 0⟩ ∧
    (loopBody idleInput closingDone).currCursorPos = 0 :=
  ⟨rfl, rfl, by decide,
   ((closing_to_closed_resets_password idleInput closingDone rfl).2.1 (by decide)).1,
   ((closing_to_closed_resets_password idleInput closingDone rfl).2.1 (by decide)).2.1⟩

/-- C9 (the code departs from the claim): while button 1 is held down throughout, pressing and
releasing button 2 makes `getDebounceButton` report `BTN1` a second time for the same
press. -/
theorem held_button_reported_twice :
    heldWithTap.all (fun s => pressed1 s.2) = true ∧
    debounceRun heldWithTap (boot 0 0) = [(1000, BTN1), (1100, 0), (1500, BTN1)] := by
  decide

/-- What a call of `getDebounceButton` can return, and what it does to the two time stamps. -/
theorem getDebounceButton_cases (t b : Int) (w : World) :
    ((getDebounceButton t b w).1 = BTN1 ∧ t - w.last_btn1_time > 300 ∧
      (getDebounceButton t b w).2.last_btn1_time = t ∧
      (getDebounceButton t b w).2.last_btn2_time = w.last_btn2_time) ∨
    ((getDebounceButton t b w).1 = BTN2 ∧ t - w.last_btn2_time > 300 ∧
      (getDebounceButton t b w).2.last_btn2_time = t ∧
      (getDebounceButton t b w).2.last_btn1_time = w.last_btn1_time) ∨
    ((getDebounceButton t b w).1 = 0 ∧
      (getDebounceButton t b w).2.last_btn1_time = w.last_btn1_time ∧
      (getDebounceButton t b w).2.last_btn2_time = w.last_btn2_time) := by
  simp only [getDebounceButton, btnPressed, DEBOUNCE_TIME_MS]
  split_ifs <;> simp_all

/-- Every report in a run comes more than 300 ms after the time stamp stored for its
button at the start of the run. -/
theorem debounceRun_after_last (ss : List (Int × Int)) (w : World) (x : Int × Int)
    (hx : x ∈ debounceRun ss w) :
    (x.2 = BTN1 → x.1 - w.last_btn1_time > 300) ∧
    (x.2 = BTN2 → x.1 - w.last_btn2_time > 300) := by
  induction ss generalizing w with
  | nil => simp [debounceRun] at hx
  | cons s ss ih =>
    simp only [debounceRun, List.mem_cons] at hx
    have hc := getDebounceButton_cases s.1 s.2 w
    rcases hx with rfl | hx
    · rcases hc with h | h | h
      · exact ⟨fun _ => h.2.1, fun e => by simp [h.1, BTN1, BTN2] at e⟩
      · exact ⟨fun e => by simp [h.1, BTN1, BTN2] at e, fun _ => h.2.1⟩
      · exact ⟨fun e => by simp [h.1, BTN1] at e, fun e => by simp [h.1, BTN2] at e⟩
    · have h1 := ih _ hx
      rcases hc with h | h | h
      · rw [h.2.2.1, h.2.2.2] at h1
        exact ⟨fun e => by have := h1.1 e; omega, h1.2⟩
      · rw [h.2.2.1, h.2.2.2] at h1
        exact ⟨h1.1, fun e => by have := h1.2 e; omega⟩
      · rw [h.2.1, h.2.2] at h1
        exact h1

theorem debounceRun_spacing (ss : List (Int × Int)) (w : World) (i j : Nat) (a b e : Int)
    (hij : i < j) (hi : (debounceRun ss w)[i]? = some (a, e))
    (hj : (debounceRun ss w)[j]? = some (b, e)) (he : e = BTN1 ∨ e = BTN2) :
    b - a > 300 := by
  induction ss generalizing w i j with
  | nil => simp [debounceRun] at hi
  | cons s ss ih =>
    cases j with
    | zero => omega
    | succ j =>
      simp only [debounceRun, List.getElem?_cons_succ] at hj
      cases i with
      | zero =>
        simp only [debounceRun, List.getElem?_cons_zero, Option.some.injEq,
          Prod.mk.injEq] at hi
        have hmem : (b, e) ∈ debounceRun ss (getDebounceButton s.1 s.2 w).2 :=
          List.getElem?_mem hj
        have h1 := debounceRun_after_last ss _ _ hmem
        have hc := getDebounceButton_cases s.1 s.2 w
        rw [hi.2] at hc
        rcases hc with h | h | h
        · have := h1.1 h.1
          rw [h.2.2.1, hi.1] at this
          exact this
        · have := h1.2 h.1
          rw [h.2.2.1, hi.1] at this
          exact this
        · rcases he with he | he <;> simp [h.1, BTN1, BTN2] at he
      | succ i =>
        simp only [debounceRun, List.getElem?_cons_succ] at hi
        exact ih _ i j (by omega) hi hj

/-- C10: in every run of `getDebounceButton` over timestamped samples, two reports of the
same button are more than 300 ms apart.  Whether `BTN2` is reported does not depend on the
time stamp kept for button 1, nor `BTN1` on that of button 2; a `BTN2` report can follow a
`BTN1` report after 50 ms. -/
theorem same_button_reports_spaced :
    (∀ (ss : List (Int × Int)) (w : World) (i j : Nat) (a b e : Int), i < j →
      (debounceRun ss w)[i]? = some (a, e) → (debounceRun ss w)[j]? = some (b, e) →
      e = BTN1 ∨ e = BTN2 → b - a > 300) ∧
    (∀ (t bus x : Int) (w : World),
      ((getDebounceButton t bus { w with last_btn1_time := x }).1 = BTN2 ↔
        (getDebounceButton t bus w).1 = BTN2) ∧
      ((getDebounceButton t bus { w with last_btn2_time := x }).1 = BTN1 ↔
        (getDebounceButton t bus w).1 = BTN1)) ∧
    debounceRun oneThenOther (boot 0 0) = [(1000, BTN1), (1020, 0), (1050, BTN2)] := by
  refine ⟨fun ss w i j a b e hij hi hj he => debounceRun_spacing ss w i j a b e hij hi hj he,
    fun t bus x w => ⟨?_, ?_⟩, by decide⟩
  · simp only [getDebounceButton, btnPressed, DEBOUNCE_TIME_MS, BTN1, BTN2]
    split_ifs <;> simp_all
  · simp only [getDebounceButton, btnPressed, DEBOUNCE_TIME_MS, BTN1, BTN2]
    split_ifs <;> simp_all

theorem same_button_reports_spaced_witness :
    debounceRun twoPresses (boot 0 0) = [(1000, BTN1), (1100, 0), (1500, BTN1)] ∧
    (1500 : Int) - 1000 > 300 :=
  ⟨by decide,
   same_button_reports_spaced.1 twoPresses (boot 0 0) 0 2 1000 1500 BTN1 (by decide)
     (by decide) (by decide) (Or.inl rfl)⟩

/-- C11 (counterexample): an `'o'` that arrives while the door is `CLOSING` is still in the
buffer when `CLOSED` is reached and opens the door there; the same run without the byte ends
in `CLOSED`.  A `'c'` that arrives while the door is `OPENING` closes it once `OPENED` is
reached; the same run without the byte ends in `OPENED`.  A `'c'` that arrives in a `CLOSED`
iteration after its drain loop, while button 2 opens the door, closes the door once `OPENED`
is reached; the same run without the byte ends in `OPENED`. -/
theorem byte_kept_through_travel_state :
    closingMid.state = DoorState.CLOSING ∧
    (run (Event.rx 'o' :: travelOut) closingMid).state = DoorState.OPENING ∧
    (run travelOut closingMid).state = DoorState.CLOSED ∧
    openingMid.state = DoorState.OPENING ∧
    (run (Event.rx 'c' :: travelOut) openingMid).state = DoorState.CLOSING ∧
    (run travelOut openingMid).state = DoorState.OPENED ∧
    (boot 0 0).state = DoorState.CLOSED ∧
    (run (Event.iter btn2LateC :: openOut) (boot 0 0)).state = DoorState.CLOSING ∧
    (run (Event.iter btn2Input :: openOut) (boot 0 0)).state = DoorState.OPENED := by
  decide

theorem step_state_of_not_iter (w : World) (e : Event) (h : ∀ i, e ≠ Event.iter i) :
    (step w e).state = w.state := by
  cases e with
  | tick => rfl
  | dhtTick => rfl
  | rx c => rfl
  | iter i => exact absurd rfl (h i)

/-- A run can take the door out of `OPENING`/`OPENED` only through an iteration that starts
in `OPENED`, moves to `CLOSING` and ends with no byte in the queue but those that arrived after
its drain loop. -/
theorem leave_open_side (es : List Event) (w : World)
    (hs : w.state = DoorState.OPENING ∨ w.state = DoorState.OPENED)
    (hr : (run es w).state = DoorState.CLOSING ∨ (run es w).state = DoorState.CLOSED) :
    ∃ e1 i e2, es = e1 ++ Event.iter i :: e2 ∧ (run e1 w).state = DoorState.OPENED ∧
      (run (e1 ++ [Event.iter i]) w).state = DoorState.CLOSING ∧
      (run (e1 ++ [Event.iter i]) w).bt = i.late := by
  induction es generalizing w with
  | nil =>
    simp only [run, List.foldl] at hr
    rcases hs with h | h <;> rcases hr with h1 | h1 <;> rw [h] at h1 <;> cases h1
  | cons e es ih =>
    have hrun : ∀ fs, run (e :: fs) w = run fs (step w e) := fun _ => rfl
    rw [hrun] at hr
    have lift : (step w e).state = DoorState.OPENING ∨ (step w e).state = DoorState.OPENED →
        ∃ e1 i e2, e :: es = e1 ++ Event.iter i :: e2 ∧ (run e1 w).state = DoorState.OPENED ∧
          (run (e1 ++ [Event.iter i]) w).state = DoorState.CLOSING ∧
          (run (e1 ++ [Event.iter i]) w).bt = i.late := by
      intro h1
      obtain ⟨e1, i, e2, he, h2, h3, h4⟩ := ih (step w e) h1 hr
      exact ⟨e :: e1, i, e2, by simp [he], by rw [hrun]; exact h2,
        by rw [List.cons_append, hrun]; exact h3, by rw [List.cons_append, hrun]; exact h4⟩
    by_cases hi : ∃ inp, e = Event.iter inp
    · obtain ⟨inp, rfl⟩ := hi
      have hst := loopBody_state inp w
      have hbt := loopBody_bt inp w
      rcases hs with h | h
      · rw [h] at hst
        simp only [] at hst
        apply lift
        rw [step_iter_state, hst]
        split_ifs <;> simp
      · rw [h] at hst hbt
        simp only [] at hst
        by_cases hc : (loopBody inp w).state = DoorState.CLOSING
        · refine ⟨[], inp, es, rfl, h, hc, ?_⟩
          show (step w (Event.iter inp)).bt = inp.late
          rw [step_iter_bt, hbt]; simp
        · apply lift
          rw [step_iter_state]
          rw [hst] at hc ⊢
          split_ifs at hc ⊢ <;> simp at hc ⊢
    · apply lift
      rw [step_state_of_not_iter w e (fun i he => hi ⟨i, he⟩)]
      exact hs

/-- A run can take the door out of `CLOSING`/`CLOSED` only through an iteration that starts
in `CLOSED`, moves to `OPENING` and ends with no byte in the queue but those that arrived after
its drain loop. -/
theorem leave_closed_side (es : List Event) (w : World)
    (hs : w.state = DoorState.CLOSING ∨ w.state = DoorState.CLOSED)
    (hr : (run es w).state = DoorState.OPENING ∨ (run es w).state = DoorState.OPENED) :
    ∃ e1 i e2, es = e1 ++ Event.iter i :: e2 ∧ (run e1 w).state = DoorState.CLOSED ∧
      (run (e1 ++ [Event.iter i]) w).state = DoorState.OPENING ∧
      (run (e1 ++ [Event.iter i]) w).bt = i.late := by
  induction es generalizing w with
  | nil =>
    simp only [run, List.foldl] at hr
    rcases hs with h | h <;> rcases hr with h1 | h1 <;> rw [h] at h1 <;> cases h1
  | cons e es ih =>
    have hrun : ∀ fs, run (e :: fs) w = run fs (step w e) := fun _ => rfl
    rw [hrun] at hr
    have lift : (step w e).state = DoorState.CLOSING ∨ (step w e).state = DoorState.CLOSED →
        ∃ e1 i e2, e :: es = e1 ++ Event.iter i :: e2 ∧ (run e1 w).state = DoorState.CLOSED ∧
          (run (e1 ++ [Event.iter i]) w).state = DoorState.OPENING ∧
          (run (e1 ++ [Event.iter i]) w).bt = i.late := by
      intro h1
      obtain ⟨e1, i, e2, he, h2, h3, h4⟩ := ih (step w e) h1 hr
      exact ⟨e :: e1, i, e2, by simp [he], by rw [hrun]; exact h2,
        by rw [List.cons_append, hrun]; exact h3, by rw [List.cons_append, hrun]; exact h4⟩
    by_cases hi : ∃ inp, e = Event.iter inp
    · obtain ⟨inp, rfl⟩ := hi
      have hst := loopBody_state inp w
      have hbt := loopBody_bt inp w
      rcases hs with h | h
      · rw [h] at hst
        simp only [] at hst
        apply lift
        rw [step_iter_state, hst]
        split_ifs <;> simp
      · rw [h] at hst hbt
        simp only [] at hst
        by_cases hc : (loopBody inp w).state = DoorState.OPENING
        · refine ⟨[], inp, es, rfl, h, hc, ?_⟩
          show (step w (Event.iter inp)).bt = inp.late
          rw [step_iter_bt, hbt]; simp
        · apply lift
          rw [step_iter_state]
          rw [hst] at hc ⊢
          split_ifs at hc ⊢ <;> simp at hc ⊢
    · apply lift
      rw [step_state_of_not_iter w e (fun i he => hi ⟨i, he⟩)]
      exact hs

/-- C11 (amended): a serial byte takes effect only in the iteration that drains it, by the
state in which that iteration starts, and not by the state in which the byte arrived.  An
iteration that starts in `OPENED` drains the queue, never ends in `OPENING`, and ends in
`CLOSING` exactly when a `'c'` was drained, the countdown is `<= 0` or the button event is
`BTN2`; one that starts in `CLOSED` drains the queue, never ends in `CLOSING`, and ends in
`OPENING` exactly on a drained `'o'`, `BTN1` with a correct password or `BTN2`.  After either
the queue holds just the bytes that arrived after its drain loop.  An iteration that starts in
`OPENING` or `CLOSING` reads nothing: the queue keeps its bytes and gains those that arrive.
The door leaves `OPENING`/`OPENED` only by an `OPENED` iteration that moves to `CLOSING`, and
leaves `CLOSING`/`CLOSED` only by a `CLOSED` iteration that moves to `OPENING`; that iteration
has drained every byte that was queued before its drain loop ended. -/
theorem serial_byte_acts_where_drained :
    (∀ (inp : LoopInput) (w : World), w.state = DoorState.OPENED →
      (step w (Event.iter inp)).state ≠ DoorState.OPENING ∧
      ((step w (Event.iter inp)).state = DoorState.CLOSING ↔
        ('c' ∈ w.bt ∨ w.wait_time ≤ 0 ∨ buttonEvent inp w = BTN2)) ∧
      (step w (Event.iter inp)).bt = inp.late) ∧
    (∀ (inp : LoopInput) (w : World), w.state = DoorState.CLOSED →
      (step w (Event.iter inp)).state ≠ DoorState.CLOSING ∧
      ((step w (Event.iter inp)).state = DoorState.OPENING ↔
        ('o' ∈ w.bt ∨
         (buttonEvent inp w = BTN1 ∧
            (changePW (closedBeforeButtons inp (loopHead inp w).2)).1 = true) ∨
         buttonEvent inp w = BTN2)) ∧
      (step w (Event.iter inp)).bt = inp.late) ∧
    (∀ (inp : LoopInput) (w : World),
      w.state = DoorState.OPENING ∨ w.state = DoorState.CLOSING →
      (step w (Event.iter inp)).bt = w.bt ++ inp.late) ∧
    (∀ (es : List Event) (w : World),
      w.state = DoorState.OPENING ∨ w.state = DoorState.OPENED →
      (run es w).state = DoorState.CLOSING ∨ (run es w).state = DoorState.CLOSED →
      ∃ e1 i e2, es = e1 ++ Event.iter i :: e2 ∧ (run e1 w).state = DoorState.OPENED ∧
        (run (e1 ++ [Event.iter i]) w).state = DoorState.CLOSING ∧
        (run (e1 ++ [Event.iter i]) w).bt = i.late) ∧
    (∀ (es : List Event) (w : World),
      w.state = DoorState.CLOSING ∨ w.state = DoorState.CLOSED →
      (run es w).state = DoorState.OPENING ∨ (run es w).state = DoorState.OPENED →
      ∃ e1 i e2, es = e1 ++ Event.iter i :: e2 ∧ (run e1 w).state = DoorState.CLOSED ∧
        (run (e1 ++ [Event.iter i]) w).state = DoorState.OPENING ∧
        (run (e1 ++ [Event.iter i]) w).bt = i.late) := by
  refine ⟨fun inp w h => ⟨?_, ?_, ?_⟩, fun inp w h => ⟨?_, ?_, ?_⟩, fun inp w h => ?_,
    leave_open_side, leave_closed_side⟩
  · rw [step_iter_state, loopBody_state, h]
    simp only []
    split_ifs <;> simp
  · rw [step_iter_state, loopBody_state, h]
    simp only []
    split_ifs with hc <;> simp [hc]
  · rw [step_iter_bt, loopBody_bt, h]; simp
  · rw [step_iter_state, loopBody_state, h]
    simp only []
    split_ifs <;> simp
  · rw [step_iter_state, loopBody_state, h]
    simp only []
    split_ifs with hc <;> simp [hc]
  · rw [step_iter_bt, loopBody_bt, h]; simp
  · rw [step_iter_bt, loopBody_bt]
    rcases h with h | h <;> simp [h]

theorem serial_byte_acts_where_drained_witness :
    openingMid.state = DoorState.OPENING ∧
    (run openThenClose openingMid).state = DoorState.CLOSING ∧
    (∃ e1 i e2, openThenClose = e1 ++ Event.iter i :: e2 ∧
      (run e1 openingMid).state = DoorState.OPENED ∧
      (run (e1 ++ [Event.iter i]) openingMid).state = DoorState.CLOSING ∧
      (run (e1 ++ [Event.iter i]) openingMid).bt = i.late) ∧
    (step { closingMid with bt := ['o'] } (Event.iter idleInput)).bt = ['o'] ++ [] ∧
    (step (boot 0 0) (Event.iter btn2LateC)).bt = ['c'] :=
  ⟨rfl, by decide,
   serial_byte_acts_where_drained.2.2.2.1 openThenClose openingMid (Or.inl rfl)
     (Or.inl (by decide)),
   serial_byte_acts_where_drained.2.2.1 idleInput { closingMid with bt := ['o'] }
     (Or.inr rfl),
   (serial_byte_acts_where_drained.2.1 btn2LateC (boot 0 0) rfl).2.2⟩

@[simp] theorem setup_state (clk : Nat → Int) (w : World) :
    (setup clk w).state = DoorState.CLOSED := by
  simp [setup]

/-- C12: the door state is `CLOSED` before `main` and after `setup`, and after every loop
iteration, for every input and every world, it is the state before the iteration or its
successor in the cycle `CLOSED -> OPENING -> OPENED -> CLOSING -> CLOSED`.  Timer ticks and
arriving bytes do not change it. -/
theorem state_steps_along_cycle :
    (∀ t1 t2 : Int, (boot t1 t2).state = DoorState.CLOSED) ∧
    (∀ (clk : Nat → Int) (w : World), (setup clk w).state = DoorState.CLOSED) ∧
    (∀ (inp : LoopInput) (w : World),
      (loopBody inp w).state = w.state ∨ (loopBody inp w).state = w.state.next) ∧
    (∀ (e : Event) (w : World),
      (step w e).state = w.state ∨ (step w e).state = w.state.next) := by
  have hl : ∀ (inp : LoopInput) (w : World),
      (loopBody inp w).state = w.state ∨ (loopBody inp w).state = w.state.next := by
    intro inp w
    rw [loopBody_state]
    cases h : w.state <;> simp only [DoorState.next] <;> split_ifs <;> simp
  refine ⟨fun _ _ => rfl, setup_state, hl, fun e w => ?_⟩
  cases e with
  | tick => exact Or.inl rfl
  | dhtTick => exact Or.inl rfl
  | rx c => exact Or.inl rfl
  | iter inp => exact hl inp w

theorem Arr4.digits_get (a : Arr4) (h : a.digits) (i : Int) : 0 ≤ a.get i ∧ a.get i ≤ 9 := by
  obtain ⟨h0, h1, h2, h3⟩ := h
  simp only [Arr4.get]
  split_ifs <;> first | assumption | decide

theorem Arr4.digits_set (a : Arr4) (h : a.digits) (i v : Int) (hv : 0 ≤ v ∧ v ≤ 9) :
    (a.set i v).digits := by
  obtain ⟨h0, h1, h2, h3⟩ := h
  simp only [Arr4.set]
  split_ifs <;> exact ⟨by assumption, by assumption, by assumption, by assumption⟩

theorem Arr4.digits_iff (a : Arr4) :
    a.digits ↔ ∀ i : Int, 0 ≤ i → i ≤ 3 → 0 ≤ a.get i ∧ a.get i ≤ 9 := by
  constructor
  · intro h i _ _
    exact Arr4.digits_get a h i
  · intro h
    exact ⟨h 0 (by omega) (by omega), h 1 (by omega) (by omega), h 2 (by omega) (by omega),
      h 3 (by omega) (by omega)⟩

theorem changePWandCursor_pwInRange (t0 t : Int) (w : World) (h : pwInRange w) :
    pwInRange (changePWandCursor t0 t w) := by
  obtain ⟨hd, h0, h3⟩ := h
  have hg := Arr4.digits_get w.pw hd w.currCursorPos
  simp only [changePWandCursor]
  split_ifs
  · exact ⟨hd, h0, h3⟩
  all_goals first
    | exact ⟨hd, h0, h3⟩
    | exact ⟨Arr4.digits_set _ hd _ _ (by constructor <;> omega), h0, h3⟩
    | exact ⟨hd, by dsimp only; omega, by dsimp only; omega⟩

theorem subTick_pwInRange (w : World) (s : PwTick) (h : pwInRange w) :
    pwInRange (subTick w s) := by
  have h1 : pwInRange (getJoysticValue s.tJ0 s.tJ s.x s.y w) := by
    simpa [pwInRange] using h
  have h2 := changePWandCursor_pwInRange s.tC0 s.tC _ h1
  simpa [pwInRange, subTick, doPwModeOperation] using h2

theorem rawTick_pwInRange (w : World) (s : Int × Int × Int × Int) (h : pwInRange w) :
    pwInRange (rawTick w s) :=
  changePWandCursor_pwInRange _ _ _ h

theorem initPwMode_pwInRange (w : World) : pwInRange (initPwMode w) := by
  have h := initPwMode_reset w
  simp [pwInRange, Arr4.digits, h.1, h.2.1]

theorem foldl_pwInRange {α : Type} (f : World → α → World)
    (hf : ∀ w s, pwInRange w → pwInRange (f w s)) (ss : List α) (w : World)
    (h : pwInRange w) : pwInRange (ss.foldl f w) := by
  induction ss generalizing w with
  | nil => exact h
  | cons s ss ih => exact ih _ (hf w s h)

/-- C13: after `initPwMode`, and after any sequence of sub-mode ticks with arbitrary clock
readings and joystick values, every digit of `pw` is in 0..9 and `currCursorPos` is in 0..3.
The same holds for any sequence of calls of `changePWandCursor` with arbitrary values in the
axis variables. -/
theorem password_state_in_range :
    (∀ w0 : World,
      (∀ i : Int, 0 ≤ i → i ≤ 3 →
        0 ≤ (initPwMode w0).pw.get i ∧ (initPwMode w0).pw.get i ≤ 9) ∧
      0 ≤ (initPwMode w0).currCursorPos ∧ (initPwMode w0).currCursorPos ≤ 3) ∧
    (∀ (w0 : World) (ss : List PwTick),
      (∀ i : Int, 0 ≤ i → i ≤ 3 →
        0 ≤ (ss.foldl subTick (initPwMode w0)).pw.get i ∧
        (ss.foldl subTick (initPwMode w0)).pw.get i ≤ 9) ∧
      0 ≤ (ss.foldl subTick (initPwMode w0)).currCursorPos ∧
      (ss.foldl subTick (initPwMode w0)).currCursorPos ≤ 3) ∧
    (∀ (w0 : World) (ss : List (Int × Int × Int × Int)),
      (∀ i : Int, 0 ≤ i → i ≤ 3 →
        0 ≤ (ss.foldl rawTick (initPwMode w0)).pw.get i ∧
        (ss.foldl rawTick (initPwMode w0)).pw.get i ≤ 9) ∧
      0 ≤ (ss.foldl rawTick (initPwMode w0)).currCursorPos ∧
      (ss.foldl rawTick (initPwMode w0)).currCursorPos ≤ 3) := by
  refine ⟨fun w0 => ?_, fun w0 ss => ?_, fun w0 ss => ?_⟩
  · have h := initPwMode_pwInRange w0
    exact ⟨(Arr4.digits_iff _).mp h.1, h.2⟩
  · have h := foldl_pwInRange subTick subTick_pwInRange ss _ (initPwMode_pwInRange w0)
    exact ⟨(Arr4.digits_iff _).mp h.1, h.2⟩
  · have h := foldl_pwInRange rawTick rawTick_pwInRange ss _ (initPwMode_pwInRange w0)
    exact ⟨(Arr4.digits_iff _).mp h.1, h.2⟩

theorem password_state_in_range_witness :
    (0 : Int) ≤ 3 ∧
    (upThenRight.foldl subTick (initPwMode (boot 0 0))).currCursorPos ≤ 3 ∧
    (upThenRight.foldl subTick (initPwMode (boot 0 0))).pw.get 0 ≤ 9 :=
  ⟨by decide, (password_state_in_range.2.1 (boot 0 0) upThenRight).2.2,
   ((password_state_in_range.2.1 (boot 0 0) upThenRight).1 0 (by decide) (by decide)).2⟩

/-- C14 (counterexample): an iteration starts in `CLOSED` with an `'o'` in the buffer and the
joystick pushed up.  After the drain the state is `OPENING`; the sub-mode tick still runs and
the iteration ends in `OPENING` with the first digit changed from 0 to 1. -/
theorem submode_runs_after_serial_open :
    closedO.state = DoorState.CLOSED ∧ closedO.pw = ⟨0, 0, 0, 0⟩ ∧
    (drainCLOSED upInput.clk closedO.bt 0 (loopHead upInput closedO).2).state =
      DoorState.OPENING ∧
    (loopBody upInput closedO).state = DoorState.OPENING ∧
    (loopBody upInput closedO).pw = ⟨1, 0, 0, 0⟩ := by
  decide

@[simp] theorem enterOPENING_pw (t0 t : Int) (w : World) : (enterOPENING t0 t w).pw = w.pw := by
  simp [enterOPENING, cleanupPwMode]

@[simp] theorem enterOPENING_currCursorPos (t0 t : Int) (w : World) :
    (enterOPENING t0 t w).currCursorPos = w.currCursorPos := by
  simp [enterOPENING, cleanupPwMode]

@[simp] theorem enterCLOSING_pw (t0 t : Int) (w : World) : (enterCLOSING t0 t w).pw = w.pw := by
  simp [enterCLOSING]

@[simp] theorem enterCLOSING_currCursorPos (t0 t : Int) (w : World) :
    (enterCLOSING t0 t w).currCursorPos = w.currCursorPos := by
  simp [enterCLOSING]

@[simp] theorem melodyLoop_pw (m : Arr4) (n : Nat) (w : World) :
    (melodyLoop m n w).pw = w.pw := (melodyLoop_frame m n w).2.2.2.1

@[simp] theorem melodyLoop_currCursorPos (m : Arr4) (n : Nat) (w : World) :
    (melodyLoop m n w).currCursorPos = w.currCursorPos := (melodyLoop_frame m n w).2.2.2.2

@[simp] theorem loopHead_pw (inp : LoopInput) (w : World) : (loopHead inp w).2.pw = w.pw := by
  simp [loopHead]

@[simp] theorem loopHead_currCursorPos (inp : LoopInput) (w : World) :
    (loopHead inp w).2.currCursorPos = w.currCursorPos := by
  simp [loopHead]

theorem drainCLOSED_pw (clk : Nat → Int) (cs : List Char) (i : Nat) (w : World) :
    (drainCLOSED clk cs i w).pw = w.pw ∧
    (drainCLOSED clk cs i w).currCursorPos = w.currCursorPos := by
  induction cs generalizing i w with
  | nil => simp [drainCLOSED]
  | cons c cs ih =>
    simp only [drainCLOSED]
    rw [(ih _ _).1, (ih _ _).2]
    split_ifs <;> simp

theorem drainOPENED_pw (clk : Nat → Int) (cs : List Char) (i : Nat) (w : World) :
    (drainOPENED clk cs i w).pw = w.pw ∧
    (drainOPENED clk cs i w).currCursorPos = w.currCursorPos := by
  induction cs generalizing i w with
  | nil => simp [drainOPENED]
  | cons c cs ih =>
    simp only [drainOPENED]
    rw [(ih _ _).1, (ih _ _).2]
    split_ifs <;> simp

/-- The `CLOSED` case ends with the buffer and cursor that `doPwModeOperation` left. -/
theorem caseCLOSED_pw (inp : LoopInput) (b : Int) (w : World) :
    (caseCLOSED inp b w).pw = (closedBeforeButtons inp w).pw ∧
    (caseCLOSED inp b w).currCursorPos = (closedBeforeButtons inp w).currCursorPos := by
  simp only [caseCLOSED, changePW, isRight]
  split_ifs <;> simp

theorem caseOPENING_pw (inp : LoopInput) (w : World) :
    (caseOPENING inp w).pw = w.pw ∧ (caseOPENING inp w).currCursorPos = w.currCursorPos := by
  simp only [caseOPENING]
  split_ifs <;> simp

theorem caseOPENED_pw (inp : LoopInput) (b : Int) (w : World) :
    (caseOPENED inp b w).pw = w.pw ∧ (caseOPENED inp b w).currCursorPos = w.currCursorPos := by
  simp only [caseOPENED]
  split_ifs <;> simp [drainOPENED_pw]

theorem caseCLOSING_pw (inp : LoopInput) (w : World) :
    ((caseCLOSING inp w).pw = w.pw ∧ (caseCLOSING inp w).currCursorPos = w.currCursorPos) ∨
    ((caseCLOSING inp w).state = DoorState.CLOSED ∧ (caseCLOSING inp w).pw = ⟨0, 0, 0, 0⟩ ∧
      (caseCLOSING inp w).currCursorPos = 0) := by
  have key := initPwMode_reset
  simp only [caseCLOSING]
  split_ifs
  · exact Or.inr ⟨by simp, (key _).1, (key _).2.1⟩
  · exact Or.inl (by simp)

/-- C14 (amended): the sub-mode tick runs in every iteration that starts in `CLOSED`, after
the serial drain and whether or not an `'o'` has just set the state to `OPENING`: the
iteration ends with the buffer and cursor that `changePWandCursor` computes on the drained
world; the drain itself leaves them alone.  An iteration that starts in `OPENING` or `OPENED`
leaves buffer and cursor unchanged, one that starts in `CLOSING` leaves them unchanged or
ends in `CLOSED` with both reset, and timer ticks and arriving bytes leave them unchanged. -/
theorem submode_runs_in_every_closed_iteration :
    (∀ (inp : LoopInput) (w : World), w.state = DoorState.CLOSED →
      (loopBody inp w).pw =
        (changePWandCursor (inp.clk 5) (inp.clk 6)
          (getJoysticValue (inp.clk 3) (inp.clk 4) inp.xAxis inp.yAxis
            (drainCLOSED inp.clk w.bt 0 (loopHead inp w).2))).pw ∧
      (loopBody inp w).currCursorPos =
        (changePWandCursor (inp.clk 5) (inp.clk 6)
          (getJoysticValue (inp.clk 3) (inp.clk 4) inp.xAxis inp.yAxis
            (drainCLOSED inp.clk w.bt 0 (loopHead inp w).2))).currCursorPos ∧
      (drainCLOSED inp.clk w.bt 0 (loopHead inp w).2).pw = w.pw ∧
      (drainCLOSED inp.clk w.bt 0 (loopHead inp w).2).currCursorPos = w.currCursorPos ∧
      ('o' ∈ w.bt →
        (drainCLOSED inp.clk w.bt 0 (loopHead inp w).2).state = DoorState.OPENING)) ∧
    (∀ (inp : LoopInput) (w : World),
      w.state = DoorState.OPENING ∨ w.state = DoorState.OPENED →
      (loopBody inp w).pw = w.pw ∧ (loopBody inp w).currCursorPos = w.currCursorPos) ∧
    (∀ (inp : LoopInput) (w : World), w.state = DoorState.CLOSING →
      ((loopBody inp w).pw = w.pw ∧ (loopBody inp w).currCursorPos = w.currCursorPos) ∨
      ((loopBody inp w).state = DoorState.CLOSED ∧ (loopBody inp w).pw = ⟨0, 0, 0, 0⟩ ∧
        (loopBody inp w).currCursorPos = 0)) ∧
    (∀ (e : Event) (w : World), (∀ i, e ≠ Event.iter i) →
      (step w e).pw = w.pw ∧ (step w e).currCursorPos = w.currCursorPos) := by
  refine ⟨fun inp w h => ?_, fun inp w h => ?_, fun inp w h => ?_, fun e w h => ?_⟩
  · have hs : (loopHead inp w).2.state = DoorState.CLOSED := by simp [h]
    have hb : loopBody inp w = caseCLOSED inp (loopHead inp w).1 (loopHead inp w).2 := by
      simp only [loopBody, hs]
    have hc := caseCLOSED_pw inp (loopHead inp w).1 (loopHead inp w).2
    have hd := drainCLOSED_pw inp.clk w.bt 0 (loopHead inp w).2
    rw [hb, hc.1, hc.2]
    refine ⟨?_, ?_, by simpa using hd.1, by simpa using hd.2, fun ho => ?_⟩
    · simp [closedBeforeButtons, doPwModeOperation]
    · simp [closedBeforeButtons, doPwModeOperation]
    · rw [drainCLOSED_state]; simp [ho]
  · rcases h with h | h
    · have hs : (loopHead inp w).2.state = DoorState.OPENING := by simp [h]
      have hb : loopBody inp w = caseOPENING inp (loopHead inp w).2 := by
        simp only [loopBody, hs]
      rw [hb]
      simpa using caseOPENING_pw inp (loopHead inp w).2
    · have hs : (loopHead inp w).2.state = DoorState.OPENED := by simp [h]
      have hb : loopBody inp w = caseOPENED inp (loopHead inp w).1 (loopHead inp w).2 := by
        simp only [loopBody, hs]
      rw [hb]
      simpa using caseOPENED_pw inp (loopHead inp w).1 (loopHead inp w).2
  · have hs : (loopHead inp w).2.state = DoorState.CLOSING := by simp [h]
    have hb : loopBody inp w = caseCLOSING inp (loopHead inp w).2 := by
      simp only [loopBody, hs]
    rw [hb]
    simpa using caseCLOSING_pw inp (loopHead inp w).2
  · cases e with
    | tick => exact ⟨rfl, rfl⟩
    | dhtTick => exact ⟨rfl, rfl⟩
    | rx c => exact ⟨rfl, rfl⟩
    | iter i => exact absurd rfl (h i)

theorem submode_runs_in_every_closed_iteration_witness :
    closedO.state = DoorState.CLOSED ∧ 'o' ∈ closedO.bt ∧
    (drainCLOSED upInput.clk closedO.bt 0 (loopHead upInput closedO).2).state =
      DoorState.OPENING ∧
    (loopBody idleInput openedHold).pw = openedHold.pw :=
  ⟨rfl, by decide,
   (submode_runs_in_every_closed_iteration.1 upInput closedO rfl).2.2.2.2 (by decide),
   (submode_runs_in_every_closed_iteration.2.1 idleInput openedHold (Or.inr rfl)).1⟩

/-- C15: in a sub-mode tick with the gate open and both axes non-neutral, the cursor is
unchanged and every slot other than the one at the cursor is unchanged; the buffer is the old
one with the slot at the cursor rewritten.  In any tick whatever, the buffer is unchanged or
the cursor is unchanged. -/
theorem vertical_axis_takes_precedence :
    (∀ (w : World) (t0 t : Int), ¬ (t - w.last_change.getD t0 < 500) →
      w.yv ≠ NEUTRAL → w.xv ≠ NEUTRAL →
      (changePWandCursor t0 t w).currCursorPos = w.currCursorPos ∧
      (∀ j : Int, j ≠ w.currCursorPos → (changePWandCursor t0 t w).pw.get j = w.pw.get j) ∧
      (∃ v : Int, (changePWandCursor t0 t w).pw = w.pw.set w.currCursorPos v)) ∧
    (∀ (w : World) (t0 t : Int),
      (changePWandCursor t0 t w).pw = w.pw ∨
      (changePWandCursor t0 t w).currCursorPos = w.currCursorPos) := by
  constructor
  · intro w t0 t hg hy hx
    have hp : ∃ v : Int, (changePWandCursor t0 t w).pw = w.pw.set w.currCursorPos v := by
      simp only [changePWandCursor, hg, hy, if_false, ne_eq, not_false_eq_true, if_true]
      exact ⟨_, rfl⟩
    refine ⟨?_, ?_, hp⟩
    · simp [changePWandCursor, hg, hy]
    · intro j hj
      obtain ⟨v, hv⟩ := hp
      rw [hv, Arr4.get_set_other _ _ _ _ hj]
  · intro w t0 t
    simp only [changePWandCursor]
    split_ifs <;> simp

theorem vertical_axis_takes_precedence_witness :
    pwUpRight.yv ≠ NEUTRAL ∧ pwUpRight.xv ≠ NEUTRAL ∧
    (changePWandCursor 0 500 pwUpRight).currCursorPos = pwUpRight.currCursorPos ∧
    (changePWandCursor 0 500 pwUpRight).pw = ⟨1, 0, 0, 0⟩ :=
  ⟨by decide, by decide,
   (vertical_axis_takes_precedence.1 pwUpRight 0 500 (by decide) (by decide) (by decide)).1,
   by decide⟩

@[simp] theorem getJoysticValue_last_change (t0 t x y : Int) (w : World) :
    (getJoysticValue t0 t x y w).last_change = w.last_change := by
  simp only [getJoysticValue]; split_ifs <;> rfl

@[simp] theorem displayCursor_last_change (w : World) :
    (displayCursor w).last_change = w.last_change := by
  simp only [displayCursor]; split_ifs <;> rfl

@[simp] theorem displayPassword_last_change (w : World) :
    (displayPassword w).last_change = w.last_change := by
  have h1 : ∀ (s : Bool × World) (i : Int),
      (displayPasswordStep s i).2.last_change = s.2.last_change := by
    intro s i
    simp only [displayPasswordStep]; split_ifs <;> rfl
  simp only [displayPassword, List.foldl]
  split_ifs <;> simp [h1]

/-- A call of `changePWandCursor` either leaves buffer and cursor alone and keeps its gate, or
it comes at least 500 ms after the gate and moves the gate to its own time. -/
theorem changePWandCursor_gate (t0 t : Int) (w : World) :
    ((changePWandCursor t0 t w).pw = w.pw ∧
      (changePWandCursor t0 t w).currCursorPos = w.currCursorPos ∧
      (changePWandCursor t0 t w).last_change = some (w.last_change.getD t0)) ∨
    (t - w.last_change.getD t0 ≥ 500 ∧ (changePWandCursor t0 t w).last_change = some t) := by
  by_cases hg : t - w.last_change.getD t0 < 500
  · left
    simp [changePWandCursor, hg]
  · by_cases hy : w.yv = NEUTRAL
    · by_cases hx : w.xv = NEUTRAL
      · left
        simp [changePWandCursor, hg, hy, hx]
      · right
        exact ⟨by omega, by simp [changePWandCursor, hg, hy, hx]⟩
    · right
      exact ⟨by omega, by simp [changePWandCursor, hg, hy]⟩

theorem subTick_gate (w : World) (s : PwTick) :
    (edited w (subTick w s) = false ∧
      (subTick w s).last_change = some (w.last_change.getD s.tC0)) ∨
    (s.tC - w.last_change.getD s.tC0 ≥ 500 ∧ (subTick w s).last_change = some s.tC) := by
  have h := changePWandCursor_gate s.tC0 s.tC (getJoysticValue s.tJ0 s.tJ s.x s.y w)
  simp only [getJoysticValue_last_change, getJoysticValue_pw,
    getJoysticValue_currCursorPos] at h
  rcases h with h | h
  · left
    simp [edited, subTick, doPwModeOperation, h.1, h.2.1, h.2.2]
  · right
    simp [subTick, doPwModeOperation, h.1, h.2]

/-- Every edit in a run of ticks comes at least 500 ms after the gate the run starts with. -/
theorem editLog_after_gate (ss : List PwTick) (w : World) (L : Int)
    (hL : w.last_change = some L) (x : Int × Bool) (hx : x ∈ editLog ss w)
    (he : x.2 = true) : x.1 - L ≥ 500 := by
  induction ss generalizing w L with
  | nil => simp [editLog] at hx
  | cons s ss ih =>
    simp only [editLog, List.mem_cons] at hx
    have hg := subTick_gate w s
    simp only [hL, Option.getD_some] at hg
    rcases hx with rfl | hx
    · rcases hg with h | h
      · simp only [] at he
        rw [h.1] at he
        cases he
      · exact h.1
    · rcases hg with h | h
      · exact ih _ L h.2 hx
      · have := ih _ s.tC h.2 hx
        omega

theorem edited_eq_false (w w1 : World) (h : edited w w1 = false) :
    w1.pw = w.pw ∧ w1.currCursorPos = w.currCursorPos := by
  simpa [edited, not_or] using h

theorem editLog_spacing (ss : List PwTick) (w : World) (i j : Nat) (a b : Int) (c : Bool)
    (hij : i < j) (hi : (editLog ss w)[i]? = some (a, true))
    (hj : (editLog ss w)[j]? = some (b, c)) (hlt : b - a < 500) : c = false := by
  induction ss generalizing w i j with
  | nil => simp [editLog] at hi
  | cons s ss ih =>
    cases j with
    | zero => omega
    | succ j =>
      simp only [editLog, List.getElem?_cons_succ] at hj
      cases i with
      | zero =>
        simp only [editLog, List.getElem?_cons_zero, Option.some.injEq, Prod.mk.injEq] at hi
        rcases subTick_gate w s with h | h
        · rw [h.1] at hi
          cases hi.2
        · cases c with
          | false => rfl
          | true =>
            have := editLog_after_gate ss _ s.tC h.2 (b, true) (List.getElem?_mem hj) rfl
            simp only [] at this
            omega
      | succ i =>
        simp only [editLog, List.getElem?_cons_succ] at hi
        exact ih _ i j (by omega) hi hj

theorem editLog_first_call (s : PwTick) (ss : List PwTick) (w : World)
    (hn : w.last_change = none) (x : Int × Bool) (hx : x ∈ editLog (s :: ss) w)
    (he : x.2 = true) : x.1 - s.tC0 ≥ 500 := by
  simp only [editLog, List.mem_cons] at hx
  have hg := subTick_gate w s
  simp only [hn, Option.getD_none] at hg
  rcases hx with rfl | hx
  · rcases hg with h | h
    · simp only [] at he
      rw [h.1] at he
      cases he
    · exact h.1
  · rcases hg with h | h
    · exact editLog_after_gate ss _ s.tC0 h.2 x hx he
    · have := editLog_after_gate ss _ s.tC h.2 x hx he
      omega

/-- C16: the gate `last_change` of `changePWandCursor` holds the time of the last tick that
changed buffer or cursor, or the reading taken when the first call initialised it.  A tick
less than 500 ms after the gate changes neither buffer nor cursor.  So in every run of
sub-mode ticks, with any time stamps and joystick values, a tick less than 500 ms after an
earlier tick that made a change makes none, and when the run starts with the first call
ever, every tick that makes a change is at least 500 ms after the reading that initialised
the gate. -/
theorem edits_at_least_500ms_apart :
    (∀ (w : World) (s : PwTick) (L : Int), w.last_change = some L → s.tC - L < 500 →
      (subTick w s).pw = w.pw ∧ (subTick w s).currCursorPos = w.currCursorPos ∧
      (subTick w s).last_change = some L) ∧
    (∀ (w : World) (s : PwTick), edited w (subTick w s) = true →
      (subTick w s).last_change = some s.tC) ∧
    (∀ (ss : List PwTick) (w : World) (i j : Nat) (a b : Int) (c : Bool), i < j →
      (editLog ss w)[i]? = some (a, true) → (editLog ss w)[j]? = some (b, c) →
      b - a < 500 → c = false) ∧
    (∀ (s : PwTick) (ss : List PwTick) (w : World), w.last_change = none →
      ∀ x ∈ editLog (s :: ss) w, x.2 = true → x.1 - s.tC0 ≥ 500) := by
  refine ⟨fun w s L hL hlt => ?_, fun w s he => ?_, editLog_spacing, editLog_first_call⟩
  · have hg := subTick_gate w s
    simp only [hL, Option.getD_some] at hg
    rcases hg with h | h
    · have := edited_eq_false _ _ h.1
      exact ⟨this.1, this.2, h.2⟩
    · omega
  · rcases subTick_gate w s with h | h
    · rw [h.1] at he
      cases he
    · exact h.2

theorem edits_at_least_500ms_apart_witness :
    afterEdit.last_change = some 600 ∧ afterEdit.pw = ⟨1, 0, 0, 0⟩ ∧
    (subTick afterEdit ⟨800, 800, 800, 800, 50, 0⟩).pw = afterEdit.pw ∧
    editLog fastTicks (initPwMode (boot 0 0)) =
      [(0, false), (600, true), (800, false), (1200, true)] :=
  ⟨by decide, by decide,
   (edits_at_least_500ms_apart.1 afterEdit ⟨800, 800, 800, 800, 50, 0⟩ 600 (by decide)
     (by decide)).1,
   by decide⟩

/-- C17: an iteration that changes the door state to `OPENING` or to `CLOSING` ends with the
countdown equal to the run window 5, and one that changes it to `OPENED` ends with the
countdown equal to the hold window 30.  This covers each trigger: in `CLOSED` a drained `'o'`,
`BTN1` with a correct password, `BTN2`; in `OPENED` a drained `'c'`, the timeout, `BTN2`; in
`OPENING` the timeout. -/
theorem countdown_reset_on_entry :
    RUN_WAIT_TIME = 5 ∧ FORCE_WAIT_TIME = 30 ∧
    (∀ (inp : LoopInput) (w : World), (loopBody inp w).state ≠ w.state →
      ((loopBody inp w).state = DoorState.OPENING ∨ (loopBody inp w).state = DoorState.CLOSING →
        (loopBody inp w).wait_time = RUN_WAIT_TIME) ∧
      ((loopBody inp w).state = DoorState.OPENED →
        (loopBody inp w).wait_time = FORCE_WAIT_TIME)) ∧
    (∀ (inp : LoopInput) (w : World), w.state = DoorState.CLOSED →
      ('o' ∈ w.bt ∨
        (buttonEvent inp w = BTN1 ∧
          (changePW (closedBeforeButtons inp (loopHead inp w).2)).1 = true) ∨
        buttonEvent inp w = BTN2) →
      (loopBody inp w).state = DoorState.OPENING ∧
      (loopBody inp w).wait_time = RUN_WAIT_TIME) ∧
    (∀ (inp : LoopInput) (w : World), w.state = DoorState.OPENED →
      ('c' ∈ w.bt ∨ w.wait_time ≤ 0 ∨ buttonEvent inp w = BTN2) →
      (loopBody inp w).state = DoorState.CLOSING ∧
      (loopBody inp w).wait_time = RUN_WAIT_TIME) ∧
    (∀ (inp : LoopInput) (w : World), w.state = DoorState.OPENING → w.wait_time ≤ 0 →
      (loopBody inp w).state = DoorState.OPENED ∧
      (loopBody inp w).wait_time = FORCE_WAIT_TIME) := by
  refine ⟨rfl, rfl, fun inp w hne => ?_, fun inp w h ht => ?_, fun inp w h ht => ?_,
    fun inp w h ht => ?_⟩
  · have hst := loopBody_state inp w
    have hw := loopBody_wait_time inp w
    cases h : w.state <;> rw [h] at hst hw <;> simp only [] at hst hw
    · split_ifs at hst hw with hc
      · exact ⟨fun _ => hw, fun ho => by rw [hst] at ho; cases ho⟩
      · exact absurd (hst.trans h.symm) hne
    · split_ifs at hst hw with hc
      · exact ⟨fun _ => hw, fun ho => by rw [hst] at ho; cases ho⟩
      · exact absurd (hst.trans h.symm) hne
    · split_ifs at hst with hc
      · refine ⟨fun ho => ?_, fun ho => by rw [hst] at ho; cases ho⟩
        rw [hst] at ho
        rcases ho with ho | ho <;> cases ho
      · exact absurd (hst.trans h.symm) hne
    · split_ifs at hst hw with hc
      · refine ⟨fun ho => ?_, fun _ => hw⟩
        rw [hst] at ho
        rcases ho with ho | ho <;> cases ho
      · exact absurd (hst.trans h.symm) hne
  · rw [loopBody_state, loopBody_wait_time, h]
    simp only [ht, if_true, and_self]
  · rw [loopBody_state, loopBody_wait_time, h]
    simp only [ht, if_true, and_self]
  · rw [loopBody_state, loopBody_wait_time, h]
    simp only [ht, if_true, and_self]

theorem countdown_reset_on_entry_witness :
    (loopBody idleInput closedXO).state ≠ closedXO.state ∧
    (loopBody idleInput closedXO).wait_time = 5 ∧
    (loopBody btn2Input openedHold).wait_time = 5 ∧
    (loopBody idleInput openingDone).wait_time = 30 :=
  ⟨by decide,
   ((countdown_reset_on_entry.2.2.1 idleInput closedXO (by decide)).1 (Or.inl (by decide))),
   (countdown_reset_on_entry.2.2.2.2.1 btn2Input openedHold rfl
     (Or.inr (Or.inr (by decide)))).2,
   (countdown_reset_on_entry.2.2.2.2.2 idleInput openingDone rfl (by decide)).2⟩

/-- C18 (the code departs from the claim): button 1 is pressed and reported, which sets
`btn1_processed`; at the next sample the button is still down and the bus is unchanged, yet
the call clears `btn1_processed`. -/
theorem latch_cleared_while_held :
    heldTwoSamples.all (fun s => pressed1 s.2) = true ∧
    (getDebounceButton 1000 2 (boot 0 0)).1 = BTN1 ∧
    (getDebounceButton 1000 2 (boot 0 0)).2.btn1_processed = true ∧
    (getDebounceButton 1060 2 (getDebounceButton 1000 2 (boot 0 0)).2).1 = 0 ∧
    (getDebounceButton 1060 2 (getDebounceButton 1000 2 (boot 0 0)).2).2.btn1_processed =
      false := by
  decide

theorem displayPasswordStep_pw (s : Bool × World) (i : Int) :
    (displayPasswordStep s i).2.pw = s.2.pw := by
  simp only [displayPasswordStep]; split_ifs <;> rfl

theorem displayPasswordStep_ppw (s : Bool × World) (i : Int) :
    (displayPasswordStep s i).2.ppw =
      if s.2.pw.get i ≠ s.2.ppw.get i then s.2.ppw.set i (s.2.pw.get i) else s.2.ppw := by
  simp only [displayPasswordStep]; split_ifs <;> rfl

theorem displayPasswordStep_myOled (s : Bool × World) (i : Int) :
    (displayPasswordStep s i).2.myOled = s.2.myOled ++ glyphOps s.2.pw s.2.ppw i := by
  simp only [displayPasswordStep, glyphOps]; split_ifs <;> simp

theorem displayPasswordStep_flag (s : Bool × World) (i : Int) :
    (displayPasswordStep s i).1 = (s.1 || decide (s.2.pw.get i ≠ s.2.ppw.get i)) := by
  simp only [displayPasswordStep]; split_ifs <;> simp_all

theorem Arr4.ext_fields (a b : Arr4) (h0 : a.a0 = b.a0) (h1 : a.a1 = b.a1) (h2 : a.a2 = b.a2)
    (h3 : a.a3 = b.a3) : a = b := by
  cases a; cases b; simp_all

/-- The four rounds of the loop of `displayPassword` on arrays: the shadow after the loop. -/
theorem shadow_after_loop (p q : Arr4) :
    (let q0 := if p.get 0 ≠ q.get 0 then q.set 0 (p.get 0) else q
     let q1 := if p.get 1 ≠ q0.get 1 then q0.set 1 (p.get 1) else q0
     let q2 := if p.get 2 ≠ q1.get 2 then q1.set 2 (p.get 2) else q1
     if p.get 3 ≠ q2.get 3 then q2.set 3 (p.get 3) else q2) = p := by
  cases p; cases q
  simp only [Arr4.get, Arr4.set]
  apply Arr4.ext_fields <;> (simp; try split_ifs <;> simp_all)

theorem displayPassword_ppw (w : World) : (displayPassword w).ppw = w.pw := by
  have h := shadow_after_loop w.pw w.ppw
  simp only [] at h
  have key : ([0, 1, 2, 3].foldl displayPasswordStep
      (false, { w with myOled := w.myOled ++ [OledOp.setTextSize 4] })).2.ppw = w.pw := by
    simp only [List.foldl, displayPasswordStep_ppw, displayPasswordStep_pw]
    exact h
  simp only [displayPassword]
  split_ifs
  · exact key
  · exact key

theorem displayPasswordStep_ppw_other (s : Bool × World) (i j : Int) (h : j ≠ i) :
    (displayPasswordStep s i).2.ppw.get j = s.2.ppw.get j := by
  rw [displayPasswordStep_ppw]
  split_ifs
  · exact Arr4.get_set_other _ _ _ _ h
  · rfl

theorem Arr4.ne_iff (p q : Arr4) :
    p ≠ q ↔ p.get 0 ≠ q.get 0 ∨ p.get 1 ≠ q.get 1 ∨ p.get 2 ≠ q.get 2 ∨ p.get 3 ≠ q.get 3 := by
  cases p; cases q
  simp only [Arr4.get, ne_eq, Arr4.mk.injEq]
  simp
  tauto

/-- The display calls of `displayPassword`: the text size, the glyph calls of the slots that
differ from the shadow, and `display()` when some slot differs. -/
theorem displayPassword_myOled (w : World) :
    (displayPassword w).myOled =
      w.myOled ++ [OledOp.setTextSize 4] ++
        (glyphOps w.pw w.ppw 0 ++ glyphOps w.pw w.ppw 1 ++ glyphOps w.pw w.ppw 2 ++
          glyphOps w.pw w.ppw 3) ++
        (if w.pw ≠ w.ppw then [OledOp.display] else []) := by
  have g : ∀ (q q1 : Arr4) (k : Int), q1.get k = q.get k →
      glyphOps w.pw q1 k = glyphOps w.pw q k := by
    intro q q1 k h
    simp only [glyphOps, h]
  have hlog : ([0, 1, 2, 3].foldl displayPasswordStep
      (false, { w with myOled := w.myOled ++ [OledOp.setTextSize 4] })).2.myOled =
      w.myOled ++ [OledOp.setTextSize 4] ++
        (glyphOps w.pw w.ppw 0 ++ glyphOps w.pw w.ppw 1 ++ glyphOps w.pw w.ppw 2 ++
          glyphOps w.pw w.ppw 3) := by
    simp only [List.foldl, displayPasswordStep_myOled, displayPasswordStep_pw]
    rw [g w.ppw _ 1 (displayPasswordStep_ppw_other _ 0 1 (by decide))]
    rw [g w.ppw _ 2 ((displayPasswordStep_ppw_other _ 1 2 (by decide)).trans
      (displayPasswordStep_ppw_other _ 0 2 (by decide)))]
    rw [g w.ppw _ 3 ((displayPasswordStep_ppw_other _ 2 3 (by decide)).trans
      ((displayPasswordStep_ppw_other _ 1 3 (by decide)).trans
        (displayPasswordStep_ppw_other _ 0 3 (by decide))))]
    simp only [List.append_assoc]
  have hflag : ([0, 1, 2, 3].foldl displayPasswordStep
      (false, { w with myOled := w.myOled ++ [OledOp.setTextSize 4] })).1 =
      decide (w.pw ≠ w.ppw) := by
    simp only [List.foldl, displayPasswordStep_flag, displayPasswordStep_pw]
    rw [(displayPasswordStep_ppw_other _ 0 1 (by decide))]
    rw [((displayPasswordStep_ppw_other _ 1 2 (by decide)).trans
      (displayPasswordStep_ppw_other _ 0 2 (by decide)))]
    rw [((displayPasswordStep_ppw_other _ 2 3 (by decide)).trans
      ((displayPasswordStep_ppw_other _ 1 3 (by decide)).trans
        (displayPasswordStep_ppw_other _ 0 3 (by decide))))]
    rw [Bool.eq_iff_iff]
    simp only [Bool.false_or, Bool.or_eq_true, decide_eq_true_eq]
    rw [Arr4.ne_iff]
    tauto
  simp only [displayPassword, hflag, decide_eq_true_eq]
  split_ifs with hd
  · simp only [hlog]
  · simp only [hlog, List.append_nil]

theorem displayCursor_myOled (w : World) :
    (displayCursor w).myOled = w.myOled ++ cursorOps w := by
  simp only [displayCursor, cursorOps]
  split_ifs <;> simp

theorem displayCursor_prevCursorPos (w : World) :
    (displayCursor w).prevCursorPos = w.currCursorPos := by
  by_cases h : w.currCursorPos = w.prevCursorPos
  · simp [displayCursor, h]
  · simp [displayCursor, h]

@[simp] theorem displayCursor_ppw (w : World) : (displayCursor w).ppw = w.ppw := by
  simp only [displayCursor]; split_ifs <;> rfl

theorem displayPassword_prevCursorPos (w : World) :
    (displayPassword w).prevCursorPos = w.prevCursorPos := by
  have h1 : ∀ (s : Bool × World) (i : Int),
      (displayPasswordStep s i).2.prevCursorPos = s.2.prevCursorPos := by
    intro s i
    simp only [displayPasswordStep]; split_ifs <;> rfl
  simp only [displayPassword, List.foldl]
  split_ifs <;> simp [h1]

theorem glyphOps_self (p : Arr4) (i : Int) : glyphOps p p i = [] := by
  simp [glyphOps]

theorem cursorOps_eq_nil (w : World) (h : w.currCursorPos = w.prevCursorPos) :
    cursorOps w = [] := by
  simp [cursorOps, h]

/-- A render that follows a render adds one call, `setTextSize(4)`. -/
theorem render_twice (w : World) :
    (render (render w)).myOled = (render w).myOled ++ [OledOp.setTextSize 4] := by
  have h1 : (render w).ppw = (render w).pw := by
    simp [render, displayPassword_ppw]
  have h2 : (render w).prevCursorPos = (render w).currCursorPos := by
    simp [render, displayCursor_prevCursorPos]
  have h3 : cursorOps (displayPassword (render w)) = [] := by
    apply cursorOps_eq_nil
    rw [displayPassword_currCursorPos, displayPassword_prevCursorPos, h2]
  have h4 : (render (render w)).myOled =
      (displayPassword (render w)).myOled ++ cursorOps (displayPassword (render w)) :=
    displayCursor_myOled _
  rw [h4, h3, displayPassword_myOled, h1]
  simp [glyphOps_self]

/-- C19: `displayPassword` sets the text size and then, for each slot `i` in turn, issues the
glyph calls of slot `i` exactly when `pw[i] != ppw[i]`: the text cursor goes to the fixed
coordinates `(xp[i], yp)` and the character `'0' + pw[i]` is written; `display()` follows
exactly when some slot differed; afterwards `ppw` equals `pw`.  `displayCursor` issues calls
exactly when `currCursorPos != prevCursorPos`, and afterwards `prevCursorPos` equals
`currCursorPos`.  A render that follows a render issues one call, `setTextSize(4)`, which
writes nothing and presents nothing. -/
theorem partial_redraw :
    (∀ w : World,
      (displayPassword w).myOled =
        w.myOled ++ [OledOp.setTextSize 4] ++
          (glyphOps w.pw w.ppw 0 ++ glyphOps w.pw w.ppw 1 ++ glyphOps w.pw w.ppw 2 ++
            glyphOps w.pw w.ppw 3) ++
          (if w.pw ≠ w.ppw then [OledOp.display] else []) ∧
      (displayPassword w).ppw = w.pw ∧ (displayPassword w).pw = w.pw) ∧
    (∀ (p q : Arr4) (i : Int),
      (p.get i ≠ q.get i →
        glyphOps p q i = [OledOp.setTextCursor (xp.get i) yp, OledOp.writeChar (0x30 + p.get i)]) ∧
      (p.get i = q.get i → glyphOps p q i = [])) ∧
    (xp = ⟨1, 32, 64, 96⟩ ∧ yp = 25) ∧
    (∀ w : World,
      (displayCursor w).myOled = w.myOled ++ cursorOps w ∧
      (cursorOps w ≠ [] ↔ w.currCursorPos ≠ w.prevCursorPos) ∧
      (displayCursor w).prevCursorPos = w.currCursorPos ∧
      (displayCursor w).currCursorPos = w.currCursorPos) ∧
    (∀ w : World,
      (render (render w)).myOled = (render w).myOled ++ [OledOp.setTextSize 4] ∧
      displayCursor (displayCursor w) = displayCursor w) ∧
    (∀ op ∈ [OledOp.setTextSize 4], op.writes = false) := by
  refine ⟨fun w => ⟨displayPassword_myOled w, displayPassword_ppw w, displayPassword_pw w⟩,
    fun p q i => ⟨fun h => ?_, fun h => ?_⟩, ⟨rfl, rfl⟩, fun w => ⟨displayCursor_myOled w, ?_,
      displayCursor_prevCursorPos w, displayCursor_currCursorPos w⟩,
    fun w => ⟨render_twice w, ?_⟩, ?_⟩
  · simp [glyphOps, h]
  · simp [glyphOps, h]
  · by_cases h : w.currCursorPos = w.prevCursorPos
    · simp [cursorOps, h]
    · simp [cursorOps, h]
  · have h := displayCursor_prevCursorPos w
    have hc := displayCursor_currCursorPos w
    have hne : ¬ (displayCursor w).currCursorPos ≠ (displayCursor w).prevCursorPos := by
      rw [h, hc]; simp
    generalize displayCursor w = v at hne
    rw [displayCursor, if_neg hne]
  · intro op hop
    simp only [List.mem_singleton] at hop
    rw [hop]
    rfl

theorem partial_redraw_witness :
    undrawn.pw.get 2 ≠ undrawn.ppw.get 2 ∧
    glyphOps undrawn.pw undrawn.ppw 2 = [OledOp.setTextCursor 64 25, OledOp.writeChar 55] ∧
    glyphOps undrawn.pw undrawn.ppw 0 = [] :=
  ⟨by decide,
   ((partial_redraw.2.1 undrawn.pw undrawn.ppw 2).1 (by decide)).trans (by decide),
   (partial_redraw.2.1 undrawn.pw undrawn.ppw 0).2 (by decide)⟩

@[simp] theorem readTempHumi_ledBus (w : World) :
    (readTempHumi w).ledBus = w.ledBus := by
  simp only [readTempHumi]; split_ifs <;> rfl

@[simp] theorem readTempHumi_motorA (w : World) :
    (readTempHumi w).motorA = w.motorA := by
  simp only [readTempHumi]; split_ifs <;> rfl

@[simp] theorem showDHT_ledBus (t0 t : Int) (w : World) :
    (showDHT t0 t w).ledBus = w.ledBus := by
  simp only [showDHT]; split_ifs <;> rfl

@[simp] theorem showDHT_motorA (t0 t : Int) (w : World) :
    (showDHT t0 t w).motorA = w.motorA := by
  simp only [showDHT]; split_ifs <;> rfl

@[simp] theorem showNow_ledBus (t0 t : Int) (w : World) :
    (showNow t0 t w).ledBus = w.ledBus := by
  simp only [showNow]; split_ifs <;> rfl

@[simp] theorem showNow_motorA (t0 t : Int) (w : World) :
    (showNow t0 t w).motorA = w.motorA := by
  simp only [showNow]; split_ifs <;> rfl

@[simp] theorem getDebounceButton_ledBus (t b : Int) (w : World) :
    ((getDebounceButton t b w).2).ledBus = w.ledBus := by
  simp only [getDebounceButton, btnPressed]; split_ifs <;> rfl

@[simp] theorem getDebounceButton_motorA (t b : Int) (w : World) :
    ((getDebounceButton t b w).2).motorA = w.motorA := by
  simp only [getDebounceButton, btnPressed]; split_ifs <;> rfl

@[simp] theorem getJoysticValue_ledBus (t0 t x y : Int) (w : World) :
    (getJoysticValue t0 t x y w).ledBus = w.ledBus := by
  simp only [getJoysticValue]; split_ifs <;> rfl

@[simp] theorem getJoysticValue_motorA (t0 t x y : Int) (w : World) :
    (getJoysticValue t0 t x y w).motorA = w.motorA := by
  simp only [getJoysticValue]; split_ifs <;> rfl

@[simp] theorem changePWandCursor_ledBus (t0 t : Int) (w : World) :
    (changePWandCursor t0 t w).ledBus = w.ledBus := by
  simp only [changePWandCursor]; split_ifs <;> rfl

@[simp] theorem changePWandCursor_motorA (t0 t : Int) (w : World) :
    (changePWandCursor t0 t w).motorA = w.motorA := by
  simp only [changePWandCursor]; split_ifs <;> rfl

@[simp] theorem displayCursor_ledBus (w : World) :
    (displayCursor w).ledBus = w.ledBus := by
  simp only [displayCursor]; split_ifs <;> rfl

@[simp] theorem displayCursor_motorA (w : World) :
    (displayCursor w).motorA = w.motorA := by
  simp only [displayCursor]; split_ifs <;> rfl

@[simp] theorem initPwMode_ledBus (w : World) :
    (initPwMode w).ledBus = w.ledBus := by
  simp [initPwMode, initPwModeStep, List.foldl]

@[simp] theorem initPwMode_motorA (w : World) :
    (initPwMode w).motorA = w.motorA := by
  simp [initPwMode, initPwModeStep, List.foldl]

@[simp] theorem changePW_ledBus (w : World) :
    ((changePW w).2).ledBus = w.ledBus := by
  rfl

@[simp] theorem changePW_motorA (w : World) :
    ((changePW w).2).motorA = w.motorA := by
  rfl

theorem displayPasswordStep_led (s : Bool × World) (i : Int) :
    (displayPasswordStep s i).2.ledBus = s.2.ledBus ∧
    (displayPasswordStep s i).2.motorA = s.2.motorA := by
  simp only [displayPasswordStep]; split_ifs <;> simp

@[simp] theorem displayPassword_ledBus (w : World) : (displayPassword w).ledBus = w.ledBus := by
  have h1 := displayPasswordStep_led
  simp only [displayPassword, List.foldl]
  split_ifs <;> simp [h1]

@[simp] theorem displayPassword_motorA (w : World) : (displayPassword w).motorA = w.motorA := by
  have h1 := displayPasswordStep_led
  simp only [displayPassword, List.foldl]
  split_ifs <;> simp [h1]

theorem melodyLoop_led (m : Arr4) (n : Nat) (w : World) :
    (melodyLoop m n w).ledBus = w.ledBus ∧ (melodyLoop m n w).motorA = w.motorA := by
  induction n generalizing w with
  | zero => simp [melodyLoop]
  | succ n ih =>
    simp only [melodyLoop]
    have := ih { playMelody (m.get w.melody_cnt) w with
      melody_cnt := (playMelody (m.get w.melody_cnt) w).melody_cnt + 1 }
    simpa [playMelody] using this

@[simp] theorem melodyLoop_ledBus (m : Arr4) (n : Nat) (w : World) :
    (melodyLoop m n w).ledBus = w.ledBus := (melodyLoop_led m n w).1

@[simp] theorem melodyLoop_motorA (m : Arr4) (n : Nat) (w : World) :
    (melodyLoop m n w).motorA = w.motorA := (melodyLoop_led m n w).2

@[simp] theorem doPwModeOperation_ledBus (a b c d x y : Int) (w : World) :
    (doPwModeOperation a b c d x y w).ledBus = w.ledBus := by
  simp [doPwModeOperation]

@[simp] theorem doPwModeOperation_motorA (a b c d x y : Int) (w : World) :
    (doPwModeOperation a b c d x y w).motorA = w.motorA := by
  simp [doPwModeOperation]

@[simp] theorem loopHead_ledBus (inp : LoopInput) (w : World) :
    (loopHead inp w).2.ledBus = w.ledBus := by
  simp [loopHead]

@[simp] theorem loopHead_motorA (inp : LoopInput) (w : World) :
    (loopHead inp w).2.motorA = w.motorA := by
  simp [loopHead]

@[simp] theorem enterOPENING_ledBus (t0 t : Int) (w : World) :
    (enterOPENING t0 t w).ledBus = 0 := by
  simp [enterOPENING, cleanupPwMode]

@[simp] theorem enterOPENING_motorA (t0 t : Int) (w : World) :
    (enterOPENING t0 t w).motorA = w.motorA := by
  simp [enterOPENING, cleanupPwMode]

@[simp] theorem enterCLOSING_ledBus (t0 t : Int) (w : World) :
    (enterCLOSING t0 t w).ledBus = 0 := by
  simp [enterCLOSING]

@[simp] theorem enterCLOSING_motorA (t0 t : Int) (w : World) :
    (enterCLOSING t0 t w).motorA = w.motorA := by
  simp [enterCLOSING]

/-- After the drain of the `CLOSED` case the motor is untouched, and either nothing has fired
or the door is `OPENING` with the indicator off. -/
theorem drainCLOSED_led (clk : Nat → Int) (cs : List Char) (i : Nat) (w : World) :
    (drainCLOSED clk cs i w).motorA = w.motorA ∧
    (((drainCLOSED clk cs i w).state = w.state ∧ (drainCLOSED clk cs i w).ledBus = w.ledBus) ∨
     ((drainCLOSED clk cs i w).state = DoorState.OPENING ∧
      (drainCLOSED clk cs i w).ledBus = 0)) := by
  induction cs generalizing i w with
  | nil => simp [drainCLOSED]
  | cons c cs ih =>
    simp only [drainCLOSED]
    by_cases hc : c = 'o'
    · have h := ih (i + 1) (enterOPENING (clk (11 + 2 * i)) (clk (12 + 2 * i)) { w with bt := cs })
      simp only [hc, if_true]
      simp only [enterOPENING_motorA, enterOPENING_state, enterOPENING_ledBus] at h
      refine ⟨h.1, Or.inr ?_⟩
      rcases h.2 with h2 | h2 <;> exact h2
    · have h := ih (i + 1) { w with bt := cs }
      simp only [hc, if_false]
      exact h

theorem drainOPENED_led (clk : Nat → Int) (cs : List Char) (i : Nat) (w : World) :
    (drainOPENED clk cs i w).motorA = w.motorA ∧
    (((drainOPENED clk cs i w).state = w.state ∧ (drainOPENED clk cs i w).ledBus = w.ledBus) ∨
     ((drainOPENED clk cs i w).state = DoorState.CLOSING ∧
      (drainOPENED clk cs i w).ledBus = 0)) := by
  induction cs generalizing i w with
  | nil => simp [drainOPENED]
  | cons c cs ih =>
    simp only [drainOPENED]
    by_cases hc : c = 'c'
    · have h := ih (i + 1) (enterCLOSING (clk (11 + 2 * i)) (clk (12 + 2 * i)) { w with bt := cs })
      simp only [hc, if_true]
      simp only [enterCLOSING_motorA, enterCLOSING_state, enterCLOSING_ledBus] at h
      refine ⟨h.1, Or.inr ?_⟩
      rcases h.2 with h2 | h2 <;> exact h2
    · have h := ih (i + 1) { w with bt := cs }
      simp only [hc, if_false]
      exact h

/-- Motor after an iteration, as the calls made on it since the start of the iteration. -/
theorem loopBody_motorA (inp : LoopInput) (w : World) :
    (loopBody inp w).motorA =
      match w.state with
      | DoorState.CLOSED => w.motorA
      | DoorState.OPENED => w.motorA
      | DoorState.OPENING =>
        if w.wait_time ≤ 0 then (w.motorA.forward 30).stop else w.motorA.forward 30
      | DoorState.CLOSING =>
        if w.wait_time ≤ 0 then (w.motorA.backward 30).stop else w.motorA.backward 30 := by
  have hs : (loopHead inp w).2.state = w.state := loopHead_state inp w
  cases h : w.state <;> rw [h] at hs <;> simp only [loopBody, hs]
  · simp only [caseCLOSED, closedBeforeButtons]
    split_ifs <;> simp [(drainCLOSED_led _ _ _ _).1]
  · simp only [caseOPENED]
    split_ifs <;> simp [(drainOPENED_led _ _ _ _).1]
  · simp only [caseCLOSING, melodyLoop_wait_time, loopHead_wait_time]
    split_ifs <;> simp
  · simp only [caseOPENING, melodyLoop_wait_time, loopHead_wait_time]
    split_ifs <;> simp

/-- LED value after an iteration that starts in a world where the invariant holds. -/
theorem loopBody_ledBus (inp : LoopInput) (w : World) (hi : restInvariant w) :
    (loopBody inp w).ledBus =
      match (loopBody inp w).state with
      | DoorState.CLOSED => 1
      | DoorState.OPENED => 4
      | DoorState.OPENING => 0
      | DoorState.CLOSING => 0 := by
  have hs : (loopHead inp w).2.state = w.state := loopHead_state inp w
  cases h : w.state <;> rw [h] at hs <;> simp only [loopBody, hs]
  · have hl : (loopHead inp w).2.ledBus = 1 := by simpa using (hi.1 h).1
    have hd := (drainCLOSED_led inp.clk (loopHead inp w).2.bt 0 (loopHead inp w).2).2
    rw [hs, hl] at hd
    simp only [loopHead_bt] at hd
    simp only [caseCLOSED, closedBeforeButtons, changePW, isRight]
    split_ifs <;> rcases hd with hd | hd <;> simp [hd.1, hd.2]
  · have hl : (loopHead inp w).2.ledBus = 4 := by simpa using (hi.2.1 h).1
    have hd := (drainOPENED_led inp.clk (loopHead inp w).2.bt 0 (loopHead inp w).2).2
    rw [hs, hl] at hd
    simp only [loopHead_bt] at hd
    simp only [caseOPENED]
    split_ifs <;> rcases hd with hd | hd <;> simp [hd.1, hd.2]
  · have hl : w.ledBus = 0 := hi.2.2 (Or.inr h)
    simp only [caseCLOSING, melodyLoop_wait_time, loopHead_wait_time]
    split_ifs <;> simp [hl, hs, h]
  · have hl : w.ledBus = 0 := hi.2.2 (Or.inl h)
    simp only [caseOPENING, melodyLoop_wait_time, loopHead_wait_time]
    split_ifs <;> simp [hl, hs, h]

theorem loopBody_restInvariant (inp : LoopInput) (w : World) (hi : restInvariant w) :
    restInvariant (loopBody inp w) := by
  have hled := loopBody_ledBus inp w hi
  have hst := loopBody_state inp w
  have hm := loopBody_motorA inp w
  cases h : w.state <;> rw [h] at hst hm <;> simp only [] at hst hm
  · have h0 := (hi.1 h).2
    split_ifs at hst <;> rw [hst] at hled <;> simp only [] at hled <;>
      simp [restInvariant, hst, hled, hm, h0]
  · have h0 := (hi.2.1 h).2
    split_ifs at hst <;> rw [hst] at hled <;> simp only [] at hled <;>
      simp [restInvariant, hst, hled, hm, h0]
  · split_ifs at hst hm <;> rw [hst] at hled <;> simp only [] at hled <;>
      simp [restInvariant, hst, hled, hm, Motor.stop]
  · split_ifs at hst hm <;> rw [hst] at hled <;> simp only [] at hled <;>
      simp [restInvariant, hst, hled, hm, Motor.stop]

theorem step_restInvariant (w : World) (e : Event) (hi : restInvariant w) :
    restInvariant (step w e) := by
  cases e with
  | tick => exact hi
  | dhtTick => exact hi
  | rx c => exact hi
  | iter inp => exact loopBody_restInvariant inp w hi

theorem run_restInvariant (es : List Event) (w : World) (hi : restInvariant w) :
    restInvariant (run es w) := by
  induction es generalizing w with
  | nil => exact hi
  | cons e es ih => exact ih _ (step_restInvariant w e hi)

theorem setup_restInvariant (clk : Nat → Int) (t1 t2 : Int) :
    restInvariant (setup clk (boot t1 t2)) := by
  have h1 : (setup clk (boot t1 t2)).state = DoorState.CLOSED := setup_state _ _
  have h2 : (setup clk (boot t1 t2)).ledBus = 1 := by simp [setup]
  have h3 : (setup clk (boot t1 t2)).motorA = Motor.init := by simp [setup, boot]
  simp [restInvariant, h1, h2, h3, Motor.init]

/-- C20: in every world reachable from `setup` by timer ticks, arriving bytes and loop
iterations, the motor speed is 0 when the door is `CLOSED` or `OPENED`, and the LED value is 1
exactly when the door is `CLOSED`, 4 exactly when it is `OPENED`, 0 exactly when it is
`OPENING` or `CLOSING`.  An iteration that starts in `CLOSED` or `OPENED` makes no call on the
motor; one that starts in `OPENING` calls `forward(0.3)`, one that starts in `CLOSING` calls
`backward(0.3)`, and `stop()` follows exactly when the countdown is `<= 0`, which is when the
iteration moves to `OPENED` or `CLOSED`. -/
theorem rest_states_motor_and_indicator :
    (∀ (t1 t2 : Int) (clk : Nat → Int) (es : List Event),
      ((run es (setup clk (boot t1 t2))).state = DoorState.CLOSED ∨
        (run es (setup clk (boot t1 t2))).state = DoorState.OPENED →
        (run es (setup clk (boot t1 t2))).motorA._speed = 0) ∧
      ((run es (setup clk (boot t1 t2))).ledBus = 1 ↔
        (run es (setup clk (boot t1 t2))).state = DoorState.CLOSED) ∧
      ((run es (setup clk (boot t1 t2))).ledBus = 4 ↔
        (run es (setup clk (boot t1 t2))).state = DoorState.OPENED) ∧
      ((run es (setup clk (boot t1 t2))).ledBus = 0 ↔
        (run es (setup clk (boot t1 t2))).state = DoorState.OPENING ∨
        (run es (setup clk (boot t1 t2))).state = DoorState.CLOSING)) ∧
    (∀ (inp : LoopInput) (w : World),
      (w.state = DoorState.CLOSED ∨ w.state = DoorState.OPENED →
        (loopBody inp w).motorA = w.motorA) ∧
      (w.state = DoorState.OPENING →
        ((loopBody inp w).state = DoorState.OPENED ↔ w.wait_time ≤ 0) ∧
        (loopBody inp w).motorA =
          if w.wait_time ≤ 0 then (w.motorA.forward 30).stop else w.motorA.forward 30) ∧
      (w.state = DoorState.CLOSING →
        ((loopBody inp w).state = DoorState.CLOSED ↔ w.wait_time ≤ 0) ∧
        (loopBody inp w).motorA =
          if w.wait_time ≤ 0 then (w.motorA.backward 30).stop else w.motorA.backward 30)) ∧
    (∀ m : Motor, m.stop._speed = 0 ∧ (m.forward 30)._speed = 30 ∧
      (m.backward 30)._speed = 30) := by
  refine ⟨fun t1 t2 clk es => ?_, fun inp w => ⟨fun h => ?_, fun h => ?_, fun h => ?_⟩,
    fun m => ⟨rfl, ?_, ?_⟩⟩
  · have hi := run_restInvariant es _ (setup_restInvariant clk t1 t2)
    generalize run es (setup clk (boot t1 t2)) = v at hi
    obtain ⟨h1, h2, h3⟩ := hi
    cases hs : v.state
    · have := h1 hs
      simp [this.1, this.2]
    · have := h2 hs
      simp [this.1, this.2]
    · have := h3 (Or.inr hs)
      simp [this]
    · have := h3 (Or.inl hs)
      simp [this]
  · rw [loopBody_motorA]
    rcases h with h | h <;> rw [h]
  · rw [loopBody_motorA, loopBody_state, h]
    refine ⟨?_, rfl⟩
    by_cases hw : w.wait_time ≤ 0 <;> simp [hw]
  · rw [loopBody_motorA, loopBody_state, h]
    refine ⟨?_, rfl⟩
    by_cases hw : w.wait_time ≤ 0 <;> simp [hw]
  · simp only [Motor.forward]
    split_ifs with hc
    · exact hc.2
    · rfl
  · simp only [Motor.backward]
    split_ifs with hc
    · exact hc.2
    · rfl

theorem rest_states_motor_and_indicator_witness :
    (run openCycle (setup idleInput.clk (boot 0 0))).state = DoorState.OPENED ∧
    (run (openCycle.take 3) (setup idleInput.clk (boot 0 0))).motorA._speed = 30 ∧
    (run openCycle (setup idleInput.clk (boot 0 0))).motorA._speed = 0 ∧
    (run openCycle (setup idleInput.clk (boot 0 0))).ledBus = 4 :=
  ⟨by decide, by decide,
   (rest_states_motor_and_indicator.1 0 0 idleInput.clk openCycle).1 (Or.inr (by decide)),
   (rest_states_motor_and_indicator.1 0 0 idleInput.clk openCycle).2.2.1.mpr (by decide)⟩

end DoorLock
